import Mathlib

/-!
Formal model of the trading-system repository's core algorithms:
the Black-Scholes pricing helpers (greeks_helper.py), the risk
predicates (risk.py), the backtester day loop (engine.py), the
performance reporter's drawdown computation (reporting.py) and the
strike selector (strikes.py).

Modelling conventions:
* Python floats are modelled as exact rationals (`ℚ`).
* A Python function that can raise an exception is modelled with an
  `Option`/`Except` result; `none`/`.error` stands for the raised
  exception (`ValueError` from `math.log` of a non-positive argument,
  `ZeroDivisionError`, pandas lookup failures, ...).
* The transcendental primitives `math.exp`, `math.log`, `math.sqrt`
  and `math.erf` are abstracted as a bundle of rational functions
  (`MathPrims`); the source's control flow only feeds their outputs
  into further arithmetic, so the theorems below are proved for every
  interpretation of the primitives.
-/

namespace TradingSys

/-! ## Python strings

Python strings are modelled as `List Char` (Lean's `String` operations do
not reduce in the kernel).  `str` injects a Lean string literal. -/

/-- The character list underlying a string literal. -/
def str (s : String) : List Char := s.data

/-- ASCII lower-casing of one character (Python `str.lower` on the
identifiers used by this code base, which are all ASCII). -/
def lowerChar (c : Char) : Char :=
  if 'A' ≤ c ∧ c ≤ 'Z' then Char.ofNat (c.toNat + 32) else c

/-- ASCII upper-casing of one character. -/
def upperChar (c : Char) : Char :=
  if 'a' ≤ c ∧ c ≤ 'z' then Char.ofNat (c.toNat - 32) else c

/-- Python `s.lower()`. -/
def pyLower (s : List Char) : List Char := s.map lowerChar

/-- Python `s.upper()`. -/
def pyUpper (s : List Char) : List Char := s.map upperChar

/-- Python `s.startswith(pre)`. -/
def pyStarts (s pre : List Char) : Bool := pre.isPrefixOf s

/-- Python `s.endswith(suf)`. -/
def pyEnds (s suf : List Char) : Bool := suf.isSuffixOf s

/-- Bundle of transcendental primitives used by greeks_helper.py
(`math.exp`, `math.log`, `math.sqrt`, `math.erf`). -/
structure MathPrims where
  exp : ℚ → ℚ
  log : ℚ → ℚ
  sqrt : ℚ → ℚ
  erf : ℚ → ℚ

/-- greeks_helper._norm_cdf: `0.5 * (1.0 + erf(x / sqrt(2.0)))`. -/
def norm_cdf (pm : MathPrims) (x : ℚ) : ℚ :=
  (1 + pm.erf (x / pm.sqrt 2)) / 2

/-- greeks_helper.bs_price.  Returns `none` exactly when the Python code
raises: for `T > 0` and `sigma > 0` the expression `math.log(S / K)`
raises `ZeroDivisionError` when `K == 0` and `ValueError` when
`S / K <= 0`. -/
def bs_price (pm : MathPrims) (S K T r q sigma : ℚ) (call : Bool) : Option ℚ :=
  if T ≤ 0 ∨ sigma ≤ 0 then
    -- discounted intrinsic as a conservative fallback
    some (if call then max 0 (S * pm.exp (-q * T) - K * pm.exp (-r * T))
          else max 0 (K * pm.exp (-r * T) - S * pm.exp (-q * T)))
  else if K = 0 ∨ S / K ≤ 0 then none
  else
    let d1 := (pm.log (S / K) + (r - q + sigma * sigma / 2) * T) / (sigma * pm.sqrt T)
    let d2 := d1 - sigma * pm.sqrt T
    some (if call then
            S * pm.exp (-q * T) * norm_cdf pm d1 - K * pm.exp (-r * T) * norm_cdf pm d2
          else
            K * pm.exp (-r * T) * norm_cdf pm (-d2) - S * pm.exp (-q * T) * norm_cdf pm (-d1))

/-- greeks_helper.bs_delta, with the same exception model as `bs_price`. -/
def bs_delta (pm : MathPrims) (S K T r q sigma : ℚ) (call : Bool) : Option ℚ :=
  if T ≤ 0 ∨ sigma ≤ 0 then
    -- heuristic intrinsic-limit delta when close to expiry or zero vol
    some (if call then (if S > K then 1 else 0) else (if S < K then -1 else 0))
  else if K = 0 ∨ S / K ≤ 0 then none
  else
    let d1 := (pm.log (S / K) + (r - q + sigma * sigma / 2) * T) / (sigma * pm.sqrt T)
    some (if call then pm.exp (-q * T) * norm_cdf pm d1
          else -(pm.exp (-q * T) * norm_cdf pm (-d1)))

/-- The bisection loop of greeks_helper.iv_from_price: the `ℕ` argument is
the remaining iteration count (`range(max_iter)`), the two rationals are
the current bracket `a, b`.  The fuel-0 case is the post-loop
`return max(lo, min(0.5 * (a + b), hi))`. -/
def iv_bisect (pm : MathPrims) (S K T r q : ℚ) (call : Bool)
    (p lo hi tol : ℚ) : ℕ → ℚ → ℚ → Option ℚ
  | 0, a, b => some (max lo (min ((a + b) / 2) hi))
  | Nat.succ n, a, b =>
    let m := (a + b) / 2
    (bs_price pm S K T r q m call).bind fun pv =>
      if |pv - p| < tol then some (max lo (min m hi))
      else if pv > p then iv_bisect pm S K T r q call p lo hi tol n a m
      else iv_bisect pm S K T r q call p lo hi tol n m b

/-- greeks_helper.iv_from_price (implied volatility by bisection).
The Python defaults are `lo = 1e-6`, `hi = 5.0`, `tol = 1e-6`,
`max_iter = 100`; the claims are stated at those defaults. -/
def iv_from_price (pm : MathPrims) (S K T r q : ℚ) (call : Bool)
    (price lo hi tol : ℚ) (maxIter : ℕ) : Option ℚ :=
  let p := max price 0
  (bs_price pm S K T r q lo call).bind fun plo =>
  (bs_price pm S K T r q hi call).bind fun phi =>
    if p ≤ plo then some lo
    else if phi ≤ p then some hi
    else iv_bisect pm S K T r q call p lo hi tol maxIter lo hi

/-- greeks_helper.yearfrac: ACT/365F with non-negative clamp. -/
def yearfrac (t0 t1 : ℚ) : ℚ :=
  max 0 (t1 - t0) / (365 * 24 * 3600)

/-- A trivial interpretation of the primitives, used for concrete
counterexamples and witnesses (their values are irrelevant there). -/
def pmId : MathPrims :=
  { exp := fun x => x, log := fun x => x, sqrt := fun x => x, erf := fun x => x }

/-- Interpretation mapping every primitive to the constant 1. -/
def pmOne : MathPrims :=
  { exp := fun _ => 1, log := fun _ => 1, sqrt := fun _ => 1, erf := fun _ => 1 }

/-! ## Risk predicates (risk.py)

A missing rule (`None` in Python) is modelled as `none`; `not rule or not
rule.enabled` is false for every dataclass instance, so the remaining
guard is `rule.enabled`. -/

/-- config.RiskRule: generic target / stop-loss rule. -/
structure RiskRule where
  enabled : Bool
  basis : List Char
  value : ℚ

/-- config.TrailRule: trailing stop on option premium. -/
structure TrailRule where
  enabled : Bool
  basis : List Char
  value : ℚ

/-- config.RiskConfig: container for all leg-level exits. -/
structure RiskConfig where
  target : RiskRule
  sl : RiskRule
  trail : TrailRule

/-- risk._is_short / engine._is_short:
`str(position).lower().startswith("sell")`. -/
def is_short (position : List Char) : Bool :=
  pyStarts (pyLower position) (str ("sell"))

/-- risk.hit_target. -/
def hit_target (rule : Option RiskRule) (position : List Char)
    (entry_px entry_S ltp S : ℚ) : Bool :=
  match rule with
  | none => false
  | some rule =>
    if ¬ rule.enabled then false
    else
      let b := rule.basis
      let v := rule.value
      let short := is_short position
      if b = str ("premium_pts") then
        let move := if short then entry_px - ltp else ltp - entry_px
        decide (move ≥ v)
      else if b = str ("premium_pct") then
        let ref := if entry_px ≠ 0 then entry_px else 1
        let ret := (if short then entry_px - ltp else ltp - entry_px) / ref
        decide (ret ≥ v / 100)
      else if b = str ("underlying_pts") then
        let moveUp := S - entry_S
        if short then decide (moveUp ≤ -v) else decide (moveUp ≥ v)
      else if b = str ("underlying_pct") then
        let refS := if entry_S ≠ 0 then entry_S else 1
        let retUp := (S - entry_S) / refS
        if short then decide (retUp ≤ -v / 100) else decide (retUp ≥ v / 100)
      else false

/-- risk.hit_stop. -/
def hit_stop (rule : Option RiskRule) (position : List Char)
    (entry_px entry_S ltp S : ℚ) : Bool :=
  match rule with
  | none => false
  | some rule =>
    if ¬ rule.enabled then false
    else
      let b := rule.basis
      let v := rule.value
      let short := is_short position
      if b = str ("premium_pts") then
        let loss := if short then ltp - entry_px else entry_px - ltp
        decide (loss ≥ v)
      else if b = str ("premium_pct") then
        let ref := if entry_px ≠ 0 then entry_px else 1
        let loss := (if short then ltp - entry_px else entry_px - ltp) / ref
        decide (loss ≥ v / 100)
      else if b = str ("underlying_pts") then
        let moveUp := S - entry_S
        if short then decide (moveUp ≥ v) else decide (moveUp ≤ -v)
      else if b = str ("underlying_pct") then
        let refS := if entry_S ≠ 0 then entry_S else 1
        let retUp := (S - entry_S) / refS
        if short then decide (retUp ≥ v / 100) else decide (retUp ≤ -v / 100)
      else false

/-- risk.trail_stop (trailing on option premium only). -/
def trail_stop (trail_rule : Option TrailRule) (position : List Char)
    (best_fav_px ltp : ℚ) : Bool :=
  match trail_rule with
  | none => false
  | some rule =>
    if ¬ rule.enabled then false
    else
      let short := is_short position
      if rule.basis = str ("points") then
        if short then decide (ltp ≥ best_fav_px + rule.value)
        else decide (ltp ≤ best_fav_px - rule.value)
      else if rule.basis = str ("percent") then
        if short then decide (ltp ≥ best_fav_px * (1 + rule.value / 100))
        else decide (ltp ≤ best_fav_px * (1 - rule.value / 100))
      else false

/-! ## Performance reporter (reporting.py `_equity_and_drawdown`) -/

/-- Running cumulative sums (`pandas.Series.cumsum`) given the sum so far. -/
def cumsumFrom (acc : ℚ) : List ℚ → List ℚ
  | [] => []
  | x :: xs => (acc + x) :: cumsumFrom (acc + x) xs

/-- `pnls.cumsum()`. -/
def cumsum (l : List ℚ) : List ℚ := cumsumFrom 0 l

/-- Running maxima continuation (`pandas.Series.cummax`). -/
def cummaxFrom (m : ℚ) : List ℚ → List ℚ
  | [] => []
  | x :: xs => max m x :: cummaxFrom (max m x) xs

/-- `eq.cummax()`. -/
def cummax : List ℚ → List ℚ
  | [] => []
  | x :: xs => x :: cummaxFrom x xs

/-- reporting: `dd = eq - peak` where `eq = pnls.cumsum()` and
`peak = eq.cummax()`. -/
def drawdown (pnls : List ℚ) : List ℚ :=
  List.zipWith (fun a b => a - b) (cumsum pnls) (cummax (cumsum pnls))

/-- `dd.min()` (none on the empty series). -/
def listMin : List ℚ → Option ℚ
  | [] => none
  | x :: xs => some (xs.foldl min x)

/-- reporting._equity_and_drawdown's returned max-drawdown statistic:
`float(dd.min()) if len(dd) else 0.0`, reported as `0.0` when
`np.isclose(max_dd, 0)` (absolute tolerance `1e-8`). -/
def max_dd (pnls : List ℚ) : ℚ :=
  match listMin (drawdown pnls) with
  | none => 0
  | some m => if |m| ≤ 1/100000000 then 0 else m

/-! ## Strike selector (strikes.py)

An option-chain snapshot is a list of rows; a missing optional column
value (pandas `NaN`) is `none`.  pandas `sort_values(...).iloc[0]` and
`argsort`-based selections are modelled as first-occurrence minima /
maxima (their tie order among equal keys is unspecified in the source).
`select_strike` raising (`ValueError`, `NotImplementedError`, or an
exception propagating out of the pricing model) is `Except.error`. -/

/-- One option-chain row: columns OptionType, Strike, Close and the
optional Delta and Expiry columns (expiry dates as rationals). -/
structure ORow where
  optionType : List Char
  strike : ℚ
  close : ℚ
  delta : Option ℚ := none
  expiry : Option ℚ := none

/-- The parameter dictionary consumed by select_strike /
_infer_expiry_dt: one optional field per key.  The expiry-date aliases
(`expiry_dt` / `expiry` / `Expiry` / `expiration` / `Expiration`) are
collapsed into the single field `expiryDt`, and datetimes are rationals
(the 15:30 time-of-day adjustment affects no claim).  `kmul`, `rIr` and
`qDy` stand for the keys `k`, `r` and `q`. -/
structure SParams where
  strikeType : Option (List Char) := none
  otmSteps : Option ℤ := none
  lower : Option ℚ := none
  upper : Option ℚ := none
  premium : Option ℚ := none
  target : Option ℚ := none
  value : Option ℚ := none
  limit : Option ℚ := none
  sign : Option (List Char) := none
  multiplier : Option ℚ := none
  kmul : Option ℚ := none
  pct : Option ℚ := none
  percent : Option ℚ := none
  delta : Option ℚ := none
  position : Option (List Char) := none
  riskFree : Option ℚ := none
  rIr : Option ℚ := none
  divYield : Option ℚ := none
  qDy : Option ℚ := none
  nowDt : Option ℚ := none
  minPrice : Option ℚ := none
  expiryDt : Option ℚ := none

/-- config.StrikeCriteria: selection mode plus parameters. -/
structure StrikeCriteria where
  mode : List Char
  params : SParams

/-- First row minimising `f` (pandas argsort / sort_values + iloc[0]). -/
def argminRow (f : ORow → ℚ) : List ORow → Option ORow
  | [] => none
  | r :: rs => some (rs.foldl (fun best x => if f x < f best then x else best) r)

/-- First row maximising `f`. -/
def argmaxRow (f : ORow → ℚ) : List ORow → Option ORow
  | [] => none
  | r :: rs => some (rs.foldl (fun best x => if f best < f x then x else best) r)

/-- First pair minimising `f` over rows paired with their |delta|. -/
def argminPair (f : ORow × ℚ → ℚ) : List (ORow × ℚ) → Option (ORow × ℚ)
  | [] => none
  | x :: xs => some (xs.foldl (fun best y => if f y < f best then y else best) x)

/-- First pair maximising `f`. -/
def argmaxPair (f : ORow × ℚ → ℚ) : List (ORow × ℚ) → Option (ORow × ℚ)
  | [] => none
  | x :: xs => some (xs.foldl (fun best y => if f best < f y then y else best) x)

/-- Insertion into a sorted list (ascending). -/
def insertSorted (x : ℚ) : List ℚ → List ℚ
  | [] => x :: []
  | y :: ys => if x ≤ y then x :: y :: ys else y :: insertSorted x ys

/-- Ascending sort (`sorted(...)`). -/
def sortQ (l : List ℚ) : List ℚ := l.foldr insertSorted []

/-- Collapse adjacent duplicates of a sorted list (`unique()` composed
with the sort). -/
def dedupAdj : List ℚ → List ℚ
  | [] => []
  | x :: [] => x :: []
  | x :: y :: ys => if x = y then dedupAdj (y :: ys) else x :: dedupAdj (y :: ys)

/-- Consecutive differences (`Series.diff().dropna()`). -/
def adjacentDiffs : List ℚ → List ℚ
  | [] => []
  | _ :: [] => []
  | x :: y :: ys => (y - x) :: adjacentDiffs (y :: ys)

/-- Occurrences of `x` in `l`. -/
def countQ (l : List ℚ) (x : ℚ) : ℕ := l.countP (fun y => decide (y = x))

/-- `Series.mode().iloc[0]`: the most frequent value, the smallest on
ties (pandas returns the modes sorted ascending); `none` on an empty
series. -/
def listModeQ (l : List ℚ) : Option ℚ :=
  match dedupAdj (sortQ l) with
  | [] => none
  | c :: cs =>
    some (cs.foldl (fun best x => if countQ l best < countQ l x then x else best) c)

/-- Maximum of a rational list (`Series.max()`, skipping nothing since the
input is already the non-null subset). -/
def listMaxQ : List ℚ → Option ℚ
  | [] => none
  | x :: xs => some (xs.foldl max x)

/-- strikes._detect_step: the mode of consecutive differences of the sorted
unique strikes, defaulting when fewer than two strikes or a non-positive
step. -/
def detect_step (strikes : List ℚ) (dflt : ℚ) : ℚ :=
  let s := dedupAdj (sortQ strikes)
  if 2 ≤ s.length then
    match listModeQ (adjacentDiffs s) with
    | some step => if 0 < step then step else dflt
    | none => dflt
  else dflt

/-- Python `round(x)`: round half to even (banker's rounding). -/
def round_half_even (x : ℚ) : ℤ :=
  let f := ⌊x⌋
  let r := x - (f : ℚ)
  if r < 1/2 then f
  else if 1/2 < r then f + 1
  else if 2 ∣ f then f else f + 1

/-- Python `s.strip()`. -/
def pyStrip (s : List Char) : List Char :=
  ((s.dropWhile Char.isWhitespace).reverse.dropWhile Char.isWhitespace).reverse

/-- Digit characters of `s` interpreted as a number
(`int("".join(filter(str.isdigit, stype)))`). -/
def digitVal (s : List Char) : ℕ :=
  (s.filter Char.isDigit).foldl (fun n c => 10 * n + (c.toNat - 48)) 0

/-- Whether `s` has any digit character. -/
def hasDigit (s : List Char) : Bool := s.any Char.isDigit

/-- Substring test (Python `needle in hay`). -/
def containsSub (needle : List Char) : List Char → Bool
  | [] => needle.isEmpty
  | h :: t => needle.isPrefixOf (h :: t) || containsSub needle t

/-- strikes.select_strike's `ce_pe_atm_prices` helper: ATM call and put
premiums from the full chain, errors when either side is empty. -/
def ce_pe_atm_prices (chain : List ORow) (base : ℚ) :
    Except (List Char) (ℚ × ℚ) :=
  let ce := chain.filter (fun r => decide (pyUpper r.optionType = str ("CE")))
  let pe := chain.filter (fun r => decide (pyUpper r.optionType = str ("PE")))
  match argminRow (fun r => |r.strike - base|) ce,
        argminRow (fun r => |r.strike - base|) pe with
  | some ceR, some peR =>
    match (ce.filter (fun r => decide (r.strike = ceR.strike))).head?,
          (pe.filter (fun r => decide (r.strike = peR.strike))).head? with
    | some c, some p => .ok (c.close, p.close)
    | _, _ => .error (str ("Both CE and PE chains are required for this selection mode"))
  | _, _ => .error (str ("Both CE and PE chains are required for this selection mode"))

/-- greeks_helper.compute_iv_delta_for_chain, one row: normalise the
option type to upper case, then backfill Delta from the implied
volatility (tiny-sigma heuristic below `min_price`); `none` when the
pricing model raises. -/
def compute_iv_delta_row (pm : MathPrims) (S T rf dy minPrice : ℚ)
    (r : ORow) : Option ORow :=
  let r2 : ORow := { r with optionType := pyUpper r.optionType }
  let call := decide (r2.optionType = str ("CE"))
  if r2.close < minPrice then
    (bs_delta pm S r2.strike T rf dy (1/10000) call).map
      (fun d => { r2 with delta := some d })
  else
    (iv_from_price pm S r2.strike T rf dy call r2.close
        (1/1000000) 5 (1/1000000) 100).bind fun sigma =>
      (bs_delta pm S r2.strike T rf dy sigma call).map
        (fun d => { r2 with delta := some d })

/-- Option-propagating map over the chain rows. -/
def traverseRows (f : ORow → Option ORow) : List ORow → Option (List ORow)
  | [] => some []
  | r :: rs => (f r).bind fun r2 => (traverseRows f rs).map (fun rest => r2 :: rest)

/-- greeks_helper.compute_iv_delta_for_chain.  `nowDt` is the resolved
snapshot time (the caller passes `params["now_dt"]` when present,
otherwise the detected chain timestamp, abstracted as an input). -/
def compute_iv_delta_for_chain (pm : MathPrims) (chain : List ORow)
    (S expiryDt rf dy nowDt minPrice : ℚ) : Option (List ORow) :=
  if chain.isEmpty then some []
  else
    let T := yearfrac nowDt expiryDt
    traverseRows (compute_iv_delta_row pm S T rf dy minPrice) chain

/-- greeks_helper.ensure_delta: recompute when the Delta column is missing
(no row carries a delta) or more than 10% of it is null
(`chain["Delta"].isna().mean() > 0.1`), otherwise return the chain as is. -/
def ensure_delta (pm : MathPrims) (chain : List ORow)
    (S expiryDt rf dy nowDt minPrice : ℚ) : Option (List ORow) :=
  let needs := decide (chain.length < 10 * chain.countP (fun r => decide (r.delta = none)))
  if needs then compute_iv_delta_for_chain pm chain S expiryDt rf dy nowDt minPrice
  else some chain

/-- strikes._infer_expiry_dt: an explicit parameter wins; otherwise the
mode of the chain's expiry column; `none` (the raised `ValueError`) when
neither is available. -/
def infer_expiry_dt (chain : List ORow) (p : SParams) : Option ℚ :=
  match p.expiryDt with
  | some d => some d
  | none => listModeQ (chain.filterMap (fun r => r.expiry))

/-- The |delta| pairing and 0-100 → 0-1 normalisation shared by the delta
modes: rows with a null delta are excluded from selection (pandas sorts
their `NaN` keys last), and the whole series is divided by 100 when its
maximum exceeds 1. -/
def normalizePairs (pairs : List (ORow × ℚ)) : List (ORow × ℚ) :=
  match listMaxQ (pairs.map (fun pr => pr.2)) with
  | some m => if 1 < m then pairs.map (fun pr => (pr.1, pr.2 / 100)) else pairs
  | none => pairs

/-- The DELTA_RANGE candidate set: normalised |delta| pairs restricted to
the (normalised) requested band. -/
def delta_range_cands (df : List ORow) (lo hi : ℚ) : List (ORow × ℚ) :=
  let pairs := normalizePairs (df.filterMap (fun r => r.delta.map (fun d => (r, |d|))))
  let lo2 := if 1 < lo then lo / 100 else lo
  let hi2 := if 1 < hi then hi / 100 else hi
  pairs.filter (fun pr => decide (lo2 ≤ pr.2) && decide (pr.2 ≤ hi2))

/-- strikes.select_strike.  `envNow` abstracts
`_detect_snapshot_time` (the chain's timestamp column, or the wall
clock), used only when `params["now_dt"]` is absent. -/
def select_strike (pm : MathPrims) (envNow : ℚ) (chain : List ORow)
    (option_type : List Char) (atm_price : ℚ) (criteria : StrikeCriteria) :
    Except (List Char) ℚ :=
  let mode := pyUpper criteria.mode
  let p := criteria.params
  let df := chain.filter (fun r => decide (pyUpper r.optionType = pyUpper option_type))
  if df.isEmpty then .error (str ("No rows for the requested option type"))
  else
    let step := detect_step (df.map (fun r => r.strike)) 50
    let base := (round_half_even (atm_price / step) : ℚ) * step
    let nearestStrike : ℚ → Except (List Char) ℚ := fun target =>
      match argminRow (fun r => |r.strike - target|) df with
      | some r => .ok r.strike
      | none => .error (str ("empty chain"))
    if mode = str ("STRIKE_TYPE") then
      let stype := pyUpper (p.strikeType.getD (str ("ATM")))
      let steps := p.otmSteps.getD 0
      let n : ℤ := if hasDigit stype then (digitVal stype : ℤ) else steps
      let target :=
        if containsSub (str ("OTM")) stype then
          base + (if pyUpper option_type = str ("CE") then step * n else -(step * n))
        else if containsSub (str ("ITM")) stype then
          base - (if pyUpper option_type = str ("CE") then step * n else -(step * n))
        else base
      nearestStrike target
    else if mode = str ("PREMIUM_RANGE") then
      match p.lower, p.upper with
      | some l0, some u0 =>
        let lu := if u0 < l0 then (u0, l0) else (l0, u0)
        let cand := df.filter (fun r => decide (lu.1 ≤ r.close) && decide (r.close ≤ lu.2))
        let mid := (lu.1 + lu.2) / 2
        if cand.isEmpty then
          match argminRow (fun r => |r.close - mid|) df with
          | some r => .ok r.strike
          | none => .error (str ("empty chain"))
        else
          match argminRow (fun r => |r.close - mid|) cand with
          | some r => .ok r.strike
          | none => .error (str ("empty chain"))
      | _, _ => .error (str ("premium bounds required"))
    else if mode = str ("CLOSEST_PREMIUM") then
      let tgt := p.premium.getD (p.target.getD 100)
      match argminRow (fun r => |r.close - tgt|) df with
      | some r => .ok r.strike
      | none => .error (str ("empty chain"))
    else if mode = str ("PREMIUM_LE") then
      let lim := p.value.getD (p.limit.getD 100)
      let cand := df.filter (fun r => decide (r.close ≤ lim))
      if cand.isEmpty then
        match argminRow (fun r => r.close) df with
        | some r => .ok r.strike
        | none => .error (str ("empty chain"))
      else
        match argmaxRow (fun r => r.close) cand with
        | some r => .ok r.strike
        | none => .error (str ("empty chain"))
    else if mode = str ("PREMIUM_GE") then
      let lim := p.value.getD (p.limit.getD 100)
      let cand := df.filter (fun r => decide (lim ≤ r.close))
      if cand.isEmpty then
        match argmaxRow (fun r => r.close) df with
        | some r => .ok r.strike
        | none => .error (str ("empty chain"))
      else
        match argminRow (fun r => r.close) cand with
        | some r => .ok r.strike
        | none => .error (str ("empty chain"))
    else if mode = str ("STRADDLE_WIDTH") then
      let sign := pyStrip (p.sign.getD (str ("+")))
      let mul := p.multiplier.getD (p.kmul.getD (p.value.getD 1))
      match ce_pe_atm_prices chain base with
      | .error e => .error e
      | .ok px =>
        let straddle := px.1 + px.2
        let dir : ℚ := if sign = str ("+") ∨ pyUpper sign = str ("PLUS") then 1 else -1
        let target := base + dir * (mul * straddle)
        nearestStrike ((round_half_even (target / step) : ℚ) * step)
    else if mode = str ("%_OF_ATM") ∨ mode = str ("PCT_OF_ATM") then
      let sign := pyStrip (p.sign.getD (str ("+")))
      let pct0 := p.pct.getD (p.percent.getD 0)
      let dir : ℚ := if sign = str ("+") ∨ (0 ≤ pct0 ∧ p.sign = none) then 1 else -1
      let target := base * (1 + dir * |pct0| / 100)
      nearestStrike ((round_half_even (target / step) : ℚ) * step)
    else if mode = str ("SYNTHETIC_FUTURE") then
      let stype := pyUpper (p.strikeType.getD (str ("ATM")))
      let steps := p.otmSteps.getD 0
      match ce_pe_atm_prices chain base with
      | .error e => .error e
      | .ok px =>
        let synthBase := (round_half_even ((base - px.2 + px.1) / step) : ℚ) * step
        let n : ℤ := if hasDigit stype then (digitVal stype : ℤ) else steps
        let target :=
          if containsSub (str ("OTM")) stype then
            synthBase + (if pyUpper option_type = str ("CE") then step * n else -(step * n))
          else if containsSub (str ("ITM")) stype then
            synthBase - (if pyUpper option_type = str ("CE") then step * n else -(step * n))
          else synthBase
        nearestStrike target
    else if mode = str ("ATM_PREMIUM_PCT") then
      let pct := p.pct.getD (p.percent.getD 0)
      match ce_pe_atm_prices chain base with
      | .error e => .error e
      | .ok px =>
        let tgtPrem := pct / 100 * (px.1 + px.2)
        match argminRow (fun r => |r.close - tgtPrem|) df with
        | some r => .ok r.strike
        | none => .error (str ("empty chain"))
    else if mode = str ("CLOSEST_DELTA") then
      match infer_expiry_dt chain p with
      | none => .error (str ("CLOSEST_DELTA requires expiry"))
      | some expiryDt =>
        match ensure_delta pm chain atm_price expiryDt
            (p.riskFree.getD (p.rIr.getD (6/100))) (p.divYield.getD (p.qDy.getD 0))
            (p.nowDt.getD envNow) (p.minPrice.getD (1/100)) with
        | none => .error (str ("math domain error"))
        | some full =>
          let df2 := full.filter (fun r => decide (pyUpper r.optionType = pyUpper option_type))
          if df2.all (fun r => decide (r.delta = none)) then
            .error (str ("Unable to compute Delta for CLOSEST_DELTA mode"))
          else
            let target := p.delta.getD (p.target.getD 50)
            let pairs := normalizePairs (df2.filterMap (fun r => r.delta.map (fun d => (r, |d|))))
            let t := if 1 < |target| then target / 100 else |target|
            match argminPair (fun pr => |pr.2 - t|) pairs with
            | some pr => .ok pr.1.strike
            | none => .error (str ("Unable to compute Delta for CLOSEST_DELTA mode"))
    else if mode = str ("DELTA_RANGE") then
      match infer_expiry_dt chain p with
      | none => .error (str ("DELTA_RANGE requires expiry"))
      | some expiryDt =>
        match ensure_delta pm chain atm_price expiryDt
            (p.riskFree.getD (p.rIr.getD (6/100))) (p.divYield.getD (p.qDy.getD 0))
            (p.nowDt.getD envNow) (p.minPrice.getD (1/100)) with
        | none => .error (str ("math domain error"))
        | some full =>
          let df2 := full.filter (fun r => decide (pyUpper r.optionType = pyUpper option_type))
          if df2.all (fun r => decide (r.delta = none)) then
            .error (str ("Unable to compute Delta for DELTA_RANGE mode"))
          else
            let cand := delta_range_cands df2 (p.lower.getD 0) (p.upper.getD 100)
            if cand.isEmpty then
              .error (str ("No strikes fall within the specified delta range"))
            else if pyUpper (p.position.getD (str ("BUY"))) = str ("SELL") then
              match argmaxPair (fun pr => pr.2) cand with
              | some pr => .ok pr.1.strike
              | none => .error (str ("No strikes fall within the specified delta range"))
            else
              match argminPair (fun pr => pr.2) cand with
              | some pr => .ok pr.1.strike
              | none => .error (str ("No strikes fall within the specified delta range"))
    else .error (str ("Unsupported strike mode"))

/-! ## Strategy engine (engine.py day loop)

The spec designates the commented-out `Backtester.run_day` in engine.py as
the canonical algorithm reference; it is modelled here.  Timestamps are
naturals, a chain snapshot is the list of `ORow` quote rows at one
timestamp.  The strike re-selection performed inside a re-entry spawn
(expiry resolution, expiry filtering, `select_strike` on the current
chain, and the quote-row lookup for the selected strike) consumes only
the snapshot's data; its combined outcome is abstracted as
`SnapEnv.spawnSelect`, returning the selected strike and its close
premium, with `none` for an empty row lookup that abandons the spawn.
`_risk_from_any` / `_reentry_from_any` on already-typed configs are
identities; a missing (`None`) re-entry rule maps to the disabled
default. -/

/-- The fields of config.LegSpec that engine.leg_from_dict populates (a
LAZY_LEG replacement spec carries no re-entry rules of its own). -/
structure LegCore where
  segment : List Char
  position : List Char
  optionType : List Char
  expiry : List Char
  qtyLots : ℤ
  criteria : StrikeCriteria
  risk : RiskConfig

/-- config.ReEntryRule. -/
structure ReEntryRule where
  enabled : Bool
  mode : List Char
  maxCount : ℤ
  lazyLeg : Option LegCore

/-- config.LegSpec: a leg template with its two re-entry rules. -/
structure LegSpec extends LegCore where
  reentryOnSl : Option ReEntryRule
  reentryOnTarget : Option ReEntryRule

/-- engine.leg_from_dict's result: the core fields with the dataclass
default (disabled) re-entry rules. -/
def legSpecOfCore (c : LegCore) : LegSpec :=
  { toLegCore := c, reentryOnSl := none, reentryOnTarget := none }

/-- engine._reentry_from_any on an optional rule: `None` becomes the
disabled default `ReEntryRule()`. -/
def reentry_from_any (o : Option ReEntryRule) : ReEntryRule :=
  o.getD { enabled := false, mode := str ("RE_ASAP"), maxCount := 0, lazyLeg := none }

/-- config.StrategyConfig's costs dictionary
(`per_lot_roundtrip`/`slippage_per_fill`, both defaulting to 0). -/
structure CostModel where
  perLotRoundtrip : ℚ := 0
  slippagePerFill : ℚ := 0

/-- The config.StrategyConfig fields the day loop reads.
`overallMomentumPoints` is `overall_momentum["points"]` when the dict is
present (`none` otherwise). -/
structure StrategyConfig where
  squareOffMode : List Char
  lotSize : ℤ
  noReentryAfter : Option (List Char)
  overallMomentumPoints : Option ℚ
  costs : CostModel

/-- engine.LiveLeg: the mutable runtime state of one leg.  Python
initialises the entry fields to `None`; `entryPx`/`entryS` are modelled
as plain rationals because the engine always assigns them before any
read. -/
structure LiveLeg where
  legId : ℤ
  spec : LegSpec
  strike : ℚ
  qty : ℤ
  entryTs : Option ℕ
  exitTs : Option ℕ
  entryPx : ℚ
  exitPx : Option ℚ
  entryS : ℚ
  bestFavPx : Option ℚ
  pnl : ℚ
  hitSl : Bool
  hitTarget : Bool
  hitTrail : Bool
  exitReason : Option (List Char)
  reSlCount : ℕ
  reTgtCount : ℕ

/-- engine.LiveLeg.__init__. -/
def mkLiveLeg (legId : ℤ) (spec : LegSpec) (strike : ℚ) (qty : ℤ) : LiveLeg :=
  { legId := legId, spec := spec, strike := strike, qty := qty,
    entryTs := none, exitTs := none, entryPx := 0, exitPx := none, entryS := 0,
    bestFavPx := none, pnl := 0, hitSl := false, hitTarget := false,
    hitTrail := false, exitReason := none, reSlCount := 0, reTgtCount := 0 }

/-- engine.PendingReEntry. -/
structure PendingReEntry where
  parentLegId : ℤ
  trigger : List Char
  mode : List Char
  createdTs : ℕ
  spec : LegSpec
  watchStrike : Option ℚ
  watchPrice : ℚ

/-- engine._reverse_position. -/
def reverse_position (pos : List Char) : List Char :=
  if is_short pos then str ("Buy") else str ("Sell")

/-- The quote lookup
`opt.loc[(opt.index == ts) & (OptionType == ...) & (Strike == ...)]`
followed by `float(row["Close"].iloc[0])`: the close of the first
matching row of the snapshot. -/
def lookup_quote (quotes : List ORow) (ot : List Char) (k : ℚ) : Option ℚ :=
  (quotes.find? (fun r => decide (r.optionType = ot) && decide (r.strike = k))).map
    (fun r => r.close)

/-- engine._hit_target: identical to risk.hit_target except that the rule
is always a dataclass instance and the basis string is lower-cased. -/
def hit_target_eng (rule : RiskRule) (position : List Char)
    (entry_px entry_S ltp S : ℚ) : Bool :=
  if ¬ rule.enabled then false
  else
    let b := pyLower rule.basis
    let v := rule.value
    let short := is_short position
    if b = str ("premium_pts") then
      let move := if short then entry_px - ltp else ltp - entry_px
      decide (move ≥ v)
    else if b = str ("premium_pct") then
      let ref := if entry_px ≠ 0 then entry_px else 1
      let ret := (if short then entry_px - ltp else ltp - entry_px) / ref
      decide (ret ≥ v / 100)
    else if b = str ("underlying_pts") then
      let moveUp := S - entry_S
      if short then decide (moveUp ≤ -v) else decide (moveUp ≥ v)
    else if b = str ("underlying_pct") then
      let refS := if entry_S ≠ 0 then entry_S else 1
      let retUp := (S - entry_S) / refS
      if short then decide (retUp ≤ -v / 100) else decide (retUp ≥ v / 100)
    else false

/-- engine._hit_stop (see `hit_target_eng`). -/
def hit_stop_eng (rule : RiskRule) (position : List Char)
    (entry_px entry_S ltp S : ℚ) : Bool :=
  if ¬ rule.enabled then false
  else
    let b := pyLower rule.basis
    let v := rule.value
    let short := is_short position
    if b = str ("premium_pts") then
      let loss := if short then ltp - entry_px else entry_px - ltp
      decide (loss ≥ v)
    else if b = str ("premium_pct") then
      let ref := if entry_px ≠ 0 then entry_px else 1
      let loss := (if short then ltp - entry_px else entry_px - ltp) / ref
      decide (loss ≥ v / 100)
    else if b = str ("underlying_pts") then
      let moveUp := S - entry_S
      if short then decide (moveUp ≥ v) else decide (moveUp ≤ -v)
    else if b = str ("underlying_pct") then
      let refS := if entry_S ≠ 0 then entry_S else 1
      let retUp := (S - entry_S) / refS
      if short then decide (retUp ≥ v / 100) else decide (retUp ≤ -v / 100)
    else false

/-- engine._trail_stop: like risk.trail_stop but guarding a missing
best-favourable premium and lower-casing the basis. -/
def trail_stop_eng (rule : TrailRule) (position : List Char)
    (best_fav_px : Option ℚ) (ltp : ℚ) : Bool :=
  if ¬ rule.enabled then false
  else
    match best_fav_px with
    | none => false
    | some best =>
      let basis := pyLower rule.basis
      let v := rule.value
      let short := is_short position
      if basis = str ("points") then
        if short then decide (ltp ≥ best + v) else decide (ltp ≤ best - v)
      else if basis = str ("percent") then
        if short then decide (ltp ≥ best * (1 + v / 100))
        else decide (ltp ≤ best * (1 - v / 100))
      else false

/-- The best-favourable-premium update run for every leg with a quote at
each snapshot: a missing value is seeded with the entry premium, then a
short leg ratchets with `min`, a long leg with `max`. -/
def update_best_fav (position : List Char) (entry_px : ℚ)
    (best : Option ℚ) (px : ℚ) : ℚ :=
  let b := best.getD entry_px
  if is_short position then min b px else max b px

/-- The per-snapshot inputs of the day loop (see the section comment for
`spawnSelect`; `cutoffReached` is `ts >= nearest_ts(under, cutoff)` when
`no_reentry_after` is configured). -/
structure SnapEnv where
  ts : ℕ
  quotes : List ORow
  underlying : ℚ
  spawnSelect : LegSpec → Option (ℚ × ℚ)
  cutoffReached : Bool

/-- Result of engine._spawn_or_queue_reentry: the (possibly
counter-incremented) parent leg, an optionally spawned new leg, and the
updated pending queue. -/
structure SpawnResult where
  parent : LiveLeg
  spawned : Option LiveLeg
  pending : List PendingReEntry

/-- The tail of engine._spawn_or_queue_reentry once the guards have
passed and the (possibly reversed / lazy) replacement `spec` has been
built: an immediate spawn for the RE_ASAP family and LAZY_LEG, a queued
watcher otherwise; either outcome increments the triggering counter. -/
def spawn_finish (cfg : StrategyConfig) (env : SnapEnv) (liveLen : ℕ)
    (pending : List PendingReEntry) (leg : LiveLeg) (reason mode : List Char)
    (spec : LegSpec) : SpawnResult :=
  if pyStarts mode (str ("RE_ASAP")) ∨ mode = str ("LAZY_LEG") then
    match env.spawnSelect spec with
    | none => ⟨leg, none, pending⟩
    | some kpx =>
      let newLeg : LiveLeg :=
        { mkLiveLeg ((liveLen : ℤ) + 1) spec kpx.1 (spec.qtyLots * cfg.lotSize) with
          entryTs := some env.ts
          entryPx := kpx.2
          entryS := env.underlying
          bestFavPx := some kpx.2 }
      if reason = str ("SL") then
        ⟨{ leg with reSlCount := leg.reSlCount + 1 }, some newLeg, pending⟩
      else ⟨{ leg with reTgtCount := leg.reTgtCount + 1 }, some newLeg, pending⟩
  else
    let pen : PendingReEntry :=
      { parentLegId := leg.legId, trigger := reason, mode := mode,
        createdTs := env.ts, spec := spec,
        watchStrike := if pyStarts mode (str ("RE_COST")) then some leg.strike else none,
        watchPrice := leg.entryPx }
    if reason = str ("SL") then
      ⟨{ leg with reSlCount := leg.reSlCount + 1 }, none, pending ++ (pen :: [])⟩
    else ⟨{ leg with reTgtCount := leg.reTgtCount + 1 }, none, pending ++ (pen :: [])⟩

/-- engine._spawn_or_queue_reentry.  `liveLen` is `len(live)` at call
time (the new leg id is `len(live) + 1`). -/
def spawn_or_queue_reentry (cfg : StrategyConfig) (env : SnapEnv) (liveLen : ℕ)
    (pending : List PendingReEntry) (leg : LiveLeg) (reason : List Char) :
    SpawnResult :=
  let rule := reentry_from_any
    (if reason = str ("SL") then leg.spec.reentryOnSl else leg.spec.reentryOnTarget)
  if ¬ rule.enabled then ⟨leg, none, pending⟩
  else if rule.maxCount ≤ 0 then ⟨leg, none, pending⟩
  else if reason = str ("SL") ∧ min 20 rule.maxCount ≤ (leg.reSlCount : ℤ) then
    ⟨leg, none, pending⟩
  else if reason = str ("TARGET") ∧ min 20 rule.maxCount ≤ (leg.reTgtCount : ℤ) then
    ⟨leg, none, pending⟩
  else if cfg.noReentryAfter.isSome ∧ env.cutoffReached then ⟨leg, none, pending⟩
  else
    let mode := pyUpper rule.mode
    let newPos := if pyEnds mode (str ("_REV")) then reverse_position leg.spec.position
                  else leg.spec.position
    let spec0 : LegSpec := { leg.spec with position := newPos }
    let spec := if mode = str ("LAZY_LEG") then
        match rule.lazyLeg with
        | some c => legSpecOfCore c
        | none => spec0
      else spec0
    spawn_finish cfg env liveLen pending leg reason mode spec

/-- One leg's processing inside the snapshot loop (`for leg in
list(live)`): quote lookup (a missing row leaves the leg untouched),
running PnL, best-favourable update, exit evaluation in the order target
→ stop → trailing (only while still open), and the re-entry call on an
SL or TARGET exit. -/
def process_leg (cfg : StrategyConfig) (env : SnapEnv) (liveLen : ℕ)
    (pending : List PendingReEntry) (leg : LiveLeg) : SpawnResult :=
  match lookup_quote env.quotes (pyUpper leg.spec.optionType) leg.strike with
  | none => ⟨leg, none, pending⟩
  | some px =>
    let mult : ℤ := if is_short leg.spec.position then -1 else 1
    let leg1 := { leg with pnl := (px - leg.entryPx) * (mult : ℚ) * (-1) * (leg.qty : ℚ) }
    let leg2 := { leg1 with
      bestFavPx := some (update_best_fav leg1.spec.position leg1.entryPx leg1.bestFavPx px) }
    let S := env.underlying
    let rc := leg2.spec.risk
    if leg2.exitTs = none then
      let leg3 :=
        if hit_target_eng rc.target leg2.spec.position leg2.entryPx leg2.entryS px S then
          { leg2 with
            hitTarget := true
            exitTs := some env.ts
            exitPx := some px
            exitReason := some (str ("TARGET")) }
        else if hit_stop_eng rc.sl leg2.spec.position leg2.entryPx leg2.entryS px S then
          { leg2 with
            hitSl := true
            exitTs := some env.ts
            exitPx := some px
            exitReason := some (str ("SL")) }
        else if trail_stop_eng rc.trail leg2.spec.position leg2.bestFavPx px then
          { leg2 with
            hitTrail := true
            exitTs := some env.ts
            exitPx := some px
            exitReason := some (str ("TRAIL")) }
        else leg2
      if leg3.exitTs ≠ none ∧
          (leg3.exitReason = some (str ("SL")) ∨ leg3.exitReason = some (str ("TARGET"))) then
        spawn_or_queue_reentry cfg env liveLen pending leg3 (leg3.exitReason.getD (str ("")))
      else ⟨leg3, none, pending⟩
    else ⟨leg2, none, pending⟩

/-- The whole `for leg in list(live)` pass: processes the snapshot-start
legs in order while newly spawned legs accumulate at the tail of `live`
(so a spawn's `len(live)` is the original length plus the spawns so
far). -/
def process_legs (cfg : StrategyConfig) (env : SnapEnv) (origLen : ℕ) :
    List LiveLeg → List LiveLeg → List PendingReEntry →
    List LiveLeg × List LiveLeg × List PendingReEntry
  | [], spawned, pending => ([], spawned, pending)
  | leg :: rest, spawned, pending =>
    let res := process_leg cfg env (origLen + spawned.length) pending leg
    let out := process_legs cfg env origLen rest (spawned ++ res.spawned.toList) res.pending
    (res.parent :: out.1, out.2.1, out.2.2)

/-- Resolution of one PendingReEntry at the current snapshot: `some` is a
spawned leg, `none` keeps the entry pending (this includes the momentum
watcher with a non-positive configured threshold, failed lookups, an
unmet trigger and — silently — any unknown mode). -/
def resolve_pending (cfg : StrategyConfig) (env : SnapEnv) (liveLen : ℕ)
    (pen : PendingReEntry) : Option LiveLeg :=
  if pyStarts pen.mode (str ("RE_MOMENTUM")) then
    let pts := cfg.overallMomentumPoints.getD 0
    if pts ≤ 0 then none
    else
      match env.spawnSelect pen.spec with
      | none => none
      | some kpx =>
        if pen.watchPrice + pts ≤ kpx.2 then
          some { mkLiveLeg ((liveLen : ℤ) + 1) pen.spec kpx.1
                  (pen.spec.qtyLots * cfg.lotSize) with
                 entryTs := some env.ts
                 entryPx := kpx.2
                 entryS := env.underlying
                 bestFavPx := some kpx.2 }
        else none
  else if pyStarts pen.mode (str ("RE_COST")) then
    match pen.watchStrike with
    | none => none
    | some wk =>
      match lookup_quote env.quotes (pyUpper pen.spec.optionType) wk with
      | none => none
      | some ltp =>
        let ok := if pen.spec.position = str ("Buy") then decide (pen.watchPrice ≤ ltp)
                  else decide (ltp ≤ pen.watchPrice)
        if ok then
          some { mkLiveLeg ((liveLen : ℤ) + 1) pen.spec wk
                  (pen.spec.qtyLots * cfg.lotSize) with
                 entryTs := some env.ts
                 entryPx := ltp
                 entryS := env.underlying
                 bestFavPx := some ltp }
        else none
  else none

/-- The `for pen in pending` pass: spawned legs append to `live` (their
ids track the growing length), unresolved entries are kept in order. -/
def step_pending (cfg : StrategyConfig) (env : SnapEnv) :
    List PendingReEntry → ℕ → List LiveLeg × List PendingReEntry
  | [], _ => ([], [])
  | pen :: rest, liveLen =>
    match resolve_pending cfg env liveLen pen with
    | some leg =>
      let out := step_pending cfg env rest (liveLen + 1)
      (leg :: out.1, out.2)
    | none =>
      let out := step_pending cfg env rest liveLen
      (out.1, pen :: out.2)

/-- The Complete-mode force close of one leg at the current snapshot: an
open leg with a quote gets this timestamp and mark as its exit, tagged
`TIME` when no other reason applies. -/
def force_close (env : SnapEnv) (leg : LiveLeg) : LiveLeg :=
  if leg.exitTs = none then
    match lookup_quote env.quotes (pyUpper leg.spec.optionType) leg.strike with
    | some px =>
      { leg with
        exitTs := some env.ts
        exitPx := some px
        exitReason := if leg.exitReason = none then some (str ("TIME")) else leg.exitReason }
    | none => leg
  else leg

/-- The session state between snapshots; `ended` records that the
Complete-mode `break` has fired (the loop body never runs again). -/
structure EngineState where
  live : List LiveLeg
  pending : List PendingReEntry
  ended : Bool

/-- The leg pass of one snapshot (`for leg in list(live)` over the
snapshot-start legs with an empty spawn accumulator). -/
def snapshot_core (cfg : StrategyConfig) (env : SnapEnv) (st : EngineState) :
    List LiveLeg × List LiveLeg × List PendingReEntry :=
  process_legs cfg env st.live.length st.live [] st.pending

/-- The `live` list after the leg pass and the pending pass of one
snapshot: processed originals, their immediate re-entry spawns, then the
legs spawned from the pending queue. -/
def live_after (cfg : StrategyConfig) (env : SnapEnv) (st : EngineState) :
    List LiveLeg :=
  ((snapshot_core cfg env st).1 ++ (snapshot_core cfg env st).2.1) ++
    (step_pending cfg env (snapshot_core cfg env st).2.2
      ((snapshot_core cfg env st).1 ++ (snapshot_core cfg env st).2.1).length).1

/-- The pending queue left after both passes of one snapshot. -/
def pending_after (cfg : StrategyConfig) (env : SnapEnv) (st : EngineState) :
    List PendingReEntry :=
  (step_pending cfg env (snapshot_core cfg env st).2.2
    ((snapshot_core cfg env st).1 ++ (snapshot_core cfg env st).2.1).length).2

/-- One iteration of the day loop (`for ts, _ in window.groupby(...)`):
process every leg, resolve the pending re-entries against the same
snapshot, then — in Complete square-off mode, when any leg carries an SL
or TARGET hit — force-close every still-open leg and end the session
(the loop's `break`). -/
def snapshot_step (cfg : StrategyConfig) (env : SnapEnv) (st : EngineState) :
    EngineState :=
  if st.ended then st
  else if pyStarts (pyLower cfg.squareOffMode) (str ("complete")) ∧
      (live_after cfg env st).any (fun l => l.hitSl || l.hitTarget) then
    { live := (live_after cfg env st).map (force_close env),
      pending := pending_after cfg env st, ended := true }
  else
    { live := live_after cfg env st, pending := pending_after cfg env st,
      ended := st.ended }

/-- A whole session tail: fold the remaining snapshots. -/
def run_snapshots (cfg : StrategyConfig) (envs : List SnapEnv)
    (st : EngineState) : EngineState :=
  envs.foldl (fun s e => snapshot_step cfg e s) st

/-- Python `round(x, 2)` (banker's rounding) on exact rationals. -/
def round2 (x : ℚ) : ℚ := ((round_half_even (100 * x) : ℚ)) / 100

/-- The trade row emitted per leg at session end (the fields the claims
read). -/
structure TradeRow where
  legId : ℤ
  position : List Char
  entryPx : ℚ
  exitPx : ℚ
  pnl : ℚ
  pnlAfterCost : ℚ
  exitReason : List Char
  hitSlFlag : Bool
  hitTargetFlag : Bool

/-- The final per-leg emission of engine.run_day: the leg has been closed
(every leg is force-closed at session end), so `exit_px` is read as a
plain number. -/
def emit_row (cfg : StrategyConfig) (leg : LiveLeg) : TradeRow :=
  let mult : ℤ := if is_short leg.spec.position then -1 else 1
  let pnlPerUnit := (leg.exitPx.getD 0 - leg.entryPx) * (mult : ℚ) * (-1)
  let pnl := pnlPerUnit * (leg.qty : ℚ)
  let costs := cfg.costs.perLotRoundtrip * ((leg.qty : ℚ) / (cfg.lotSize : ℚ)) +
    cfg.costs.slippagePerFill
  { legId := leg.legId, position := leg.spec.position,
    entryPx := leg.entryPx, exitPx := leg.exitPx.getD 0,
    pnl := round2 pnl, pnlAfterCost := round2 (pnl - costs),
    exitReason := leg.exitReason.getD
      (if leg.hitSl then str ("SL")
       else if leg.hitTarget then str ("TARGET") else str ("TIME")),
    hitSlFlag := leg.hitSl, hitTargetFlag := leg.hitTarget }

/-- The best-favourable premium after a sequence of observed marks,
starting from the entry seed (`leg.best_fav_px = leg.entry_px` at entry). -/
def best_fav_after (position : List Char) (entry_px : ℚ) (marks : List ℚ) : ℚ :=
  marks.foldl (fun b px => update_best_fav position entry_px (some b) px) entry_px

/-- The invariant bound on a leg's re-entry counters: each stays within
`min 20 (max 0 max_count)` of its trigger's rule. -/
def counters_ok (leg : LiveLeg) : Prop :=
  (leg.reSlCount : ℤ) ≤ min 20 (max 0 (reentry_from_any leg.spec.reentryOnSl).maxCount) ∧
  (leg.reTgtCount : ℤ) ≤ min 20 (max 0 (reentry_from_any leg.spec.reentryOnTarget).maxCount)

/-! ## Concrete fixtures

Small concrete configurations, legs and snapshots used by the
counterexamples and witnesses. -/

/-- A risk config with every exit disabled. -/
def riskOff : RiskConfig :=
  { target := { enabled := false, basis := str ("premium_pct"), value := 0 }
    sl := { enabled := false, basis := str ("premium_pct"), value := 0 }
    trail := { enabled := false, basis := str ("points"), value := 0 } }

/-- A risk config with only a 5-point trailing stop enabled. -/
def riskTrail5 : RiskConfig :=
  { target := { enabled := false, basis := str ("premium_pct"), value := 0 }
    sl := { enabled := false, basis := str ("premium_pct"), value := 0 }
    trail := { enabled := true, basis := str ("points"), value := 5 } }

/-- A risk config with only a 10-point premium stop-loss enabled. -/
def riskSl10 : RiskConfig :=
  { target := { enabled := false, basis := str ("premium_pct"), value := 0 }
    sl := { enabled := true, basis := str ("premium_pts"), value := 10 }
    trail := { enabled := false, basis := str ("points"), value := 0 } }

/-- An ATM strike-type criteria fixture. -/
def critATM : StrikeCriteria := { mode := str ("STRIKE_TYPE"), params := {} }

/-- A one-lot short CE leg spec with the given risk config and no
re-entries. -/
def sellSpec (rc : RiskConfig) : LegSpec :=
  { segment := str ("Options"), position := str ("Sell"), optionType := str ("CE"),
    expiry := str ("Weekly"), qtyLots := 1, criteria := critATM, risk := rc,
    reentryOnSl := none, reentryOnTarget := none }

/-- A leg spec whose SL re-entry rule carries a negative `max_count`. -/
def specNegCap : LegSpec :=
  { segment := str ("Options"), position := str ("Sell"), optionType := str ("CE"),
    expiry := str ("Weekly"), qtyLots := 1, criteria := critATM, risk := riskOff,
    reentryOnSl := some { enabled := true, mode := str ("RE_ASAP"), maxCount := -1, lazyLeg := none },
    reentryOnTarget := none }

/-- A Complete-mode config: lot size 75, no cutoff, no momentum, zero
costs. -/
def cfgComplete : StrategyConfig :=
  { squareOffMode := str ("Complete"), lotSize := 75, noReentryAfter := none,
    overallMomentumPoints := none, costs := {} }

/-- A Partial-mode config with zero costs. -/
def cfgPartial : StrategyConfig :=
  { squareOffMode := str ("Partial"), lotSize := 75, noReentryAfter := none,
    overallMomentumPoints := none, costs := {} }

/-- Snapshot 1: quotes for strikes 100 (close 100) and 200 (close 50). -/
def env1 : SnapEnv :=
  { ts := 1
    quotes := { optionType := str ("CE"), strike := 100, close := 100 } ::
      { optionType := str ("CE"), strike := 200, close := 50 } :: []
    underlying := 0
    spawnSelect := fun _ => none
    cutoffReached := false }

/-- An open short leg on strike 100, entered at premium 80, with only a
trailing stop: the mark 100 trips TRAIL at this snapshot. -/
def trailLeg : LiveLeg :=
  { mkLiveLeg 1 (sellSpec riskTrail5) 100 75 with
    entryTs := some 0
    entryPx := 80
    bestFavPx := some 80 }

/-- An open short leg on strike 100, entered at premium 80, with only a
10-point stop-loss: the mark 100 trips SL at this snapshot. -/
def slLeg : LiveLeg :=
  { mkLiveLeg 1 (sellSpec riskSl10) 100 75 with
    entryTs := some 0
    entryPx := 80
    bestFavPx := some 80 }

/-- An open short leg on strike 200 with every exit disabled. -/
def idleLeg : LiveLeg :=
  { mkLiveLeg 2 (sellSpec riskOff) 200 75 with
    entryTs := some 0
    entryPx := 50
    bestFavPx := some 50 }

/-- The trailing leg after the `env1` snapshot: running PnL 1500, a
TRAIL exit at the snapshot's mark. -/
def trailLegExit : LiveLeg :=
  { trailLeg with
    pnl := 1500
    hitTrail := true
    exitTs := some 1
    exitPx := some 100
    exitReason := some (str ("TRAIL")) }

/-- The stop-loss leg after the `env1` snapshot: running PnL 1500, an SL
exit at the snapshot's mark. -/
def slLegExit : LiveLeg :=
  { slLeg with
    pnl := 1500
    hitSl := true
    exitTs := some 1
    exitPx := some 100
    exitReason := some (str ("SL")) }

/-- `idleLeg` after a Complete-mode force close at the `env1` snapshot:
closed at the mark 50 with reason TIME. -/
def idleLegClosed : LiveLeg :=
  { idleLeg with
    exitTs := some 1
    exitPx := some 50
    exitReason := some (str ("TIME")) }

/-- A one-row CE chain with a known delta and no expiry column. -/
def rowD : ORow := { optionType := str ("CE"), strike := 100, close := 5, delta := some 1 }

/-- CLOSEST_DELTA criteria with no parameters (no expiry anywhere). -/
def critCD : StrikeCriteria := { mode := str ("CLOSEST_DELTA"), params := {} }

/-- DELTA_RANGE criteria with an explicit expiry and the empty band
[0, 0]. -/
def critDR : StrikeCriteria :=
  { mode := str ("DELTA_RANGE")
    params := { lower := some 0, upper := some 0, expiryDt := some 7 } }

/-- A one-row CE chain with premium 50 (out of the band [5, 10]). -/
def rowP : ORow := { optionType := str ("CE"), strike := 100, close := 50 }

/-- PREMIUM_RANGE criteria with the given bounds. -/
def critPR (lo hi : ℚ) : StrikeCriteria :=
  { mode := str ("PREMIUM_RANGE"), params := { lower := some lo, upper := some hi } }

/-- A closed short leg that hit its TARGET: entry premium 100, exit 75. -/
def c1Leg : LiveLeg :=
  { mkLiveLeg 1 (sellSpec riskOff) 100 75 with
    entryTs := some 0
    entryPx := 100
    exitTs := some 5
    exitPx := some 75
    hitTarget := true
    exitReason := some (str ("TARGET")) }

/-! ## Theorems -/

/-- `bs_price` succeeds exactly when the near-expiry fallback applies or the
argument of `math.log` is a positive number. -/
lemma bs_price_isSome_iff (pm : MathPrims) (S K T r q sigma : ℚ) (call : Bool) :
    (bs_price pm S K T r q sigma call).isSome = true ↔
      T ≤ 0 ∨ sigma ≤ 0 ∨ (K ≠ 0 ∧ 0 < S / K) := by
  by_cases h1 : T ≤ 0 ∨ sigma ≤ 0
  · simp only [bs_price, if_pos h1, Option.isSome_some, true_iff]
    exact h1.elim Or.inl (fun h => Or.inr (Or.inl h))
  · by_cases h2 : K = 0 ∨ S / K ≤ 0
    · simp only [bs_price, if_neg h1, if_pos h2, Option.isSome_none,
        Bool.false_eq_true, false_iff]
      push_neg at h1
      rintro (h | h | ⟨hK, hpos⟩)
      · exact absurd h (not_le.mpr h1.1)
      · exact absurd h (not_le.mpr h1.2)
      · rcases h2 with h0 | hle
        · exact hK h0
        · exact absurd hpos (not_lt.mpr hle)
    · simp only [bs_price, if_neg h1, if_neg h2, Option.isSome_some, true_iff]
      push_neg at h2
      exact Or.inr (Or.inr h2)

/-- `bs_delta` succeeds exactly under the same conditions as `bs_price`. -/
lemma bs_delta_isSome_iff (pm : MathPrims) (S K T r q sigma : ℚ) (call : Bool) :
    (bs_delta pm S K T r q sigma call).isSome = true ↔
      T ≤ 0 ∨ sigma ≤ 0 ∨ (K ≠ 0 ∧ 0 < S / K) := by
  by_cases h1 : T ≤ 0 ∨ sigma ≤ 0
  · simp only [bs_delta, if_pos h1, Option.isSome_some, true_iff]
    exact h1.elim Or.inl (fun h => Or.inr (Or.inl h))
  · by_cases h2 : K = 0 ∨ S / K ≤ 0
    · simp only [bs_delta, if_neg h1, if_pos h2, Option.isSome_none,
        Bool.false_eq_true, false_iff]
      push_neg at h1
      rintro (h | h | ⟨hK, hpos⟩)
      · exact absurd h (not_le.mpr h1.1)
      · exact absurd h (not_le.mpr h1.2)
      · rcases h2 with h0 | hle
        · exact hK h0
        · exact absurd hpos (not_lt.mpr hle)
    · simp only [bs_delta, if_neg h1, if_neg h2, Option.isSome_some, true_iff]
      push_neg at h2
      exact Or.inr (Or.inr h2)

/-- If the pricer succeeds at every volatility, the bisection loop always
returns a value. -/
lemma iv_bisect_isSome (pm : MathPrims) (S K T r q : ℚ) (call : Bool)
    (p lo hi tol : ℚ)
    (h : ∀ m, (bs_price pm S K T r q m call).isSome = true) :
    ∀ n a b, (iv_bisect pm S K T r q call p lo hi tol n a b).isSome = true := by
  intro n
  induction n with
  | zero => intro a b; simp [iv_bisect]
  | succ k ih =>
    intro a b
    obtain ⟨pv, hpv⟩ := Option.isSome_iff_exists.mp (h ((a + b) / 2))
    simp only [iv_bisect, hpv, Option.some_bind]
    split_ifs with h1 h2
    · simp
    · exact ih a ((a + b) / 2)
    · exact ih ((a + b) / 2) b

/-- Every value produced by the bisection loop at the default bounds lies in
`[1e-6, 5]`. -/
lemma iv_bisect_range (pm : MathPrims) (S K T r q : ℚ) (call : Bool) (p tol : ℚ) :
    ∀ n a b v, iv_bisect pm S K T r q call p (1/1000000) 5 tol n a b = some v →
      (1/1000000 : ℚ) ≤ v ∧ v ≤ 5 := by
  intro n
  induction n with
  | zero =>
    intro a b v h
    simp only [iv_bisect, Option.some.injEq] at h
    subst h
    refine ⟨le_max_left _ _, max_le (by norm_num) ?_⟩
    exact le_trans (min_le_right _ _) (le_refl _)
  | succ k ih =>
    intro a b v h
    simp only [iv_bisect] at h
    cases hbs : bs_price pm S K T r q ((a + b) / 2) call with
    | none => rw [hbs] at h; simp at h
    | some pv =>
      rw [hbs] at h
      simp only [Option.some_bind] at h
      split_ifs at h with h1 h2
      · simp only [Option.some.injEq] at h
        subst h
        refine ⟨le_max_left _ _, max_le (by norm_num) (min_le_right _ _)⟩
      · exact ih a ((a + b) / 2) v h
      · exact ih ((a + b) / 2) b v h

/-- Claim C4 (counterexample): `bs_price` does not return for every numeric
input — at `S = 0`, `K = 1`, `T = 1`, `sigma = 1` the Python code evaluates
`math.log(0/1)` and raises `ValueError` (modelled by `none`), for any
interpretation of the primitives exemplified by `pmId`. -/
theorem c4_counterexample : bs_price pmId 0 1 1 0 0 1 true = none := by
  simp only [bs_price]
  rw [if_neg (by norm_num), if_pos (by norm_num)]

/-- Claim C4 (amended): `bs_price` and `bs_delta` return a numeric result
exactly when `T ≤ 0` or `sigma ≤ 0` (intrinsic fallback) or the argument
`S / K` of `math.log` is positive; `iv_from_price` (at its default solver
parameters, whose probe volatilities are positive) returns exactly when
`T ≤ 0` or `S / K` is positive.  In particular no exception is possible
whenever `S > 0` and `K > 0`; for `S ≤ 0` or `K ≤ 0` with `T > 0` and
`sigma > 0` the functions raise instead of clamping. -/
theorem c4_pricing_totality :
    ∀ (pm : MathPrims) (S K T r q sigma price : ℚ) (call : Bool),
      ((bs_price pm S K T r q sigma call).isSome = true ↔
        T ≤ 0 ∨ sigma ≤ 0 ∨ (K ≠ 0 ∧ 0 < S / K)) ∧
      ((bs_delta pm S K T r q sigma call).isSome = true ↔
        T ≤ 0 ∨ sigma ≤ 0 ∨ (K ≠ 0 ∧ 0 < S / K)) ∧
      ((iv_from_price pm S K T r q call price (1/1000000) 5 (1/1000000) 100).isSome = true ↔
        T ≤ 0 ∨ (K ≠ 0 ∧ 0 < S / K)) := by
  intro pm S K T r q sigma price call
  refine ⟨bs_price_isSome_iff pm S K T r q sigma call,
          bs_delta_isSome_iff pm S K T r q sigma call, ?_⟩
  by_cases hr : T ≤ 0 ∨ (K ≠ 0 ∧ 0 < S / K)
  · simp only [hr, iff_true]
    have hall : ∀ m, (bs_price pm S K T r q m call).isSome = true := by
      intro m
      rw [bs_price_isSome_iff]
      rcases hr with h | h
      · exact Or.inl h
      · exact Or.inr (Or.inr h)
    obtain ⟨plo, hplo⟩ := Option.isSome_iff_exists.mp (hall (1/1000000))
    obtain ⟨phi, hphi⟩ := Option.isSome_iff_exists.mp (hall 5)
    simp only [iv_from_price, hplo, hphi, Option.some_bind]
    split_ifs with h1 h2
    · simp
    · simp
    · exact iv_bisect_isSome pm S K T r q call (max price 0) (1/1000000) 5 (1/1000000)
        hall 100 (1/1000000) 5
  · simp only [hr, iff_false]
    push_neg at hr
    have hT : ¬ (T ≤ 0 ∨ (1/1000000 : ℚ) ≤ 0) := by
      push_neg
      exact ⟨hr.1, by norm_num⟩
    have hdom : K = 0 ∨ S / K ≤ 0 := by
      by_cases hK : K = 0
      · exact Or.inl hK
      · exact Or.inr (hr.2 hK)
    have hnone : bs_price pm S K T r q (1/1000000) call = none := by
      simp only [bs_price]
      rw [if_neg hT, if_pos hdom]
    simp only [iv_from_price, hnone, Option.none_bind, Option.isSome_none]
    simp

/-- Claim C5: at the default solver parameters (`lo = 1e-6`, `hi = 5`,
`tol = 1e-6`, 100 iterations), every value `iv_from_price` returns lies in
`[1e-6, 5]`; when the non-negative-clamped target price is at or below the
Black-Scholes price at `sigma = 1e-6` the result is exactly `1e-6`, and
otherwise, when it is at or above the price at `sigma = 5`, the result is
exactly `5`; in all remaining cases the bisection loop's (clamped) value is
returned — never an out-of-band error. -/
theorem c5_iv_clamped :
    ∀ (pm : MathPrims) (S K T r q price : ℚ) (call : Bool),
      (∀ v, iv_from_price pm S K T r q call price (1/1000000) 5 (1/1000000) 100 = some v →
        (1/1000000 : ℚ) ≤ v ∧ v ≤ 5) ∧
      (∀ plo phi, bs_price pm S K T r q (1/1000000) call = some plo →
        bs_price pm S K T r q 5 call = some phi →
        max price 0 ≤ plo →
        iv_from_price pm S K T r q call price (1/1000000) 5 (1/1000000) 100 =
          some (1/1000000)) ∧
      (∀ plo phi, bs_price pm S K T r q (1/1000000) call = some plo →
        bs_price pm S K T r q 5 call = some phi →
        ¬ max price 0 ≤ plo → phi ≤ max price 0 →
        iv_from_price pm S K T r q call price (1/1000000) 5 (1/1000000) 100 = some 5) := by
  intro pm S K T r q price call
  refine ⟨?_, ?_, ?_⟩
  · intro v h
    simp only [iv_from_price] at h
    cases hlo : bs_price pm S K T r q (1/1000000) call with
    | none => rw [hlo] at h; simp at h
    | some plo =>
      rw [hlo] at h
      cases hhi : bs_price pm S K T r q 5 call with
      | none => rw [hhi] at h; simp at h
      | some phi =>
        rw [hhi] at h
        simp only [Option.some_bind] at h
        split_ifs at h with h1 h2
        · simp only [Option.some.injEq] at h
          subst h
          norm_num
        · simp only [Option.some.injEq] at h
          subst h
          norm_num
        · exact iv_bisect_range pm S K T r q call (max price 0) (1/1000000) 100
            (1/1000000) 5 v h
  · intro plo phi hplo hphi hle
    simp only [iv_from_price, hplo, hphi, Option.some_bind]
    rw [if_pos hle]
  · intro plo phi hplo hphi h1 h2
    simp only [iv_from_price, hplo, hphi, Option.some_bind]
    rw [if_neg h1, if_pos h2]

/-- Witness for C5: at `S = 3`, `K = 1`, `T = 0` the bound prices are both 2,
the clamped target 0 is below the lower-bound price, and the solver returns
exactly the lower bound, which lies in the band. -/
theorem c5_iv_clamped_witness :
    iv_from_price pmOne 3 1 0 0 0 true 0 (1/1000000) 5 (1/1000000) 100 =
      some (1/1000000) ∧
    ((1/1000000 : ℚ) ≤ 1/1000000 ∧ (1/1000000 : ℚ) ≤ 5) := by
  have h1 : bs_price pmOne 3 1 0 0 0 (1/1000000) true = some 2 := by
    norm_num [bs_price, pmOne]
  have h2 : bs_price pmOne 3 1 0 0 0 (5 : ℚ) true = some 2 := by
    norm_num [bs_price, pmOne]
  have hp := c5_iv_clamped pmOne 3 1 0 0 0 0 true
  have h0 := hp.2.1 2 2 h1 h2 (by norm_num : max (0 : ℚ) 0 ≤ 2)
  exact ⟨h0, hp.1 (1/1000000) h0⟩

/-- Witness for C4 (amended): at `S = 2`, `K = 1`, `T = 1`, `sigma = 1` the
success condition holds and `bs_price` indeed returns a value. -/
theorem c4_pricing_totality_witness :
    (bs_price pmId 2 1 1 0 0 1 true).isSome = true := by
  exact (c4_pricing_totality pmId 2 1 1 0 0 1 0 true).1.mpr (by norm_num)

/-- Claim C9: with a missing rule or a rule whose `enabled` is false, each of
`hit_target`, `hit_stop` and `trail_stop` returns false regardless of the
position, the entry premium/underlying, the mark premium/underlying and the
best favorable premium. -/
theorem c9_disabled_rules_false :
    ∀ (rule : Option RiskRule) (trule : Option TrailRule) (position : List Char)
      (entry_px entry_S ltp S best : ℚ),
      (∀ r, rule = some r → r.enabled = false) →
      (∀ r, trule = some r → r.enabled = false) →
      hit_target rule position entry_px entry_S ltp S = false ∧
      hit_stop rule position entry_px entry_S ltp S = false ∧
      trail_stop trule position best ltp = false := by
  intro rule trule position entry_px entry_S ltp S best hr ht
  refine ⟨?_, ?_, ?_⟩
  · cases rule with
    | none => rfl
    | some r => simp [hit_target, hr r rfl]
  · cases rule with
    | none => rfl
    | some r => simp [hit_stop, hr r rfl]
  · cases trule with
    | none => rfl
    | some r => simp [trail_stop, ht r rfl]

/-- Witness for C9 at a concrete disabled rule and trail rule. -/
theorem c9_disabled_rules_false_witness :
    hit_target (some ⟨false, str ("premium_pct"), 25⟩) (str ("Sell")) 100 22000 10 21000 =
      false ∧
    hit_stop (some ⟨false, str ("premium_pct"), 25⟩) (str ("Sell")) 100 22000 10 21000 =
      false ∧
    trail_stop (some ⟨false, str ("points"), 5⟩) (str ("Sell")) 40 100 = false := by
  exact c9_disabled_rules_false (some ⟨false, str ("premium_pct"), 25⟩)
    (some ⟨false, str ("points"), 5⟩) (str ("Sell")) 100 22000 10 21000 40
    (by intro r h; cases h; rfl) (by intro r h; cases h; rfl)

/-- Claim C2 (counterexample): on the per-trade PnL series
`[10, -5, 8, -20, 12]` the reporter's drawdown computation does not produce
`-25`.  (The cumulative equity is `[10, 5, 13, -7, 5]`, its running peak
`[10, 10, 13, 13, 13]`, so the drawdown minimum is `-20`.) -/
theorem c2_counterexample :
    max_dd ((10 : ℚ) :: -5 :: 8 :: -20 :: 12 :: []) ≠ -25 := by
  norm_num [max_dd, drawdown, cumsum, cumsumFrom, cummax, cummaxFrom, listMin]

/-- Claim C2 (amended): on the per-trade PnL series `[10, -5, 8, -20, 12]`
the reporter computes equity `[10, 5, 13, -7, 5]`, drawdown series
`[0, -5, 0, -20, -8]` and max drawdown `-20`. -/
theorem c2_drawdown_scenario :
    cumsum ((10 : ℚ) :: -5 :: 8 :: -20 :: 12 :: []) =
      ((10 : ℚ) :: 5 :: 13 :: -7 :: 5 :: []) ∧
    drawdown ((10 : ℚ) :: -5 :: 8 :: -20 :: 12 :: []) =
      ((0 : ℚ) :: -5 :: 0 :: -20 :: -8 :: []) ∧
    max_dd ((10 : ℚ) :: -5 :: 8 :: -20 :: 12 :: []) = -20 := by
  refine ⟨?_, ?_, ?_⟩
  · norm_num [cumsum, cumsumFrom]
  · norm_num [drawdown, cumsum, cumsumFrom, cummax, cummaxFrom]
  · norm_num [max_dd, drawdown, cumsum, cumsumFrom, cummax, cummaxFrom, listMin]

/-- Claim C7: for every leg, the running best-favourable premium is
monotone in the favourable direction across snapshots, whatever the mark
sequence: non-increasing for a short (Sell) leg, non-decreasing for a
long (Buy) leg. -/
theorem c7_best_fav_monotone :
    ∀ (position : List Char) (entry_px : ℚ) (marks : List ℚ) (px : ℚ),
      (is_short position = true →
        best_fav_after position entry_px (marks ++ px :: []) ≤
          best_fav_after position entry_px marks) ∧
      (is_short position = false →
        best_fav_after position entry_px marks ≤
          best_fav_after position entry_px (marks ++ px :: [])) := by
  intro pos e marks px
  constructor <;> intro h <;>
    simp only [best_fav_after, List.foldl_append, List.foldl_cons, List.foldl_nil,
      update_best_fav, Option.getD_some, h]
  · exact min_le_left _ _
  · exact le_max_left _ _

/-- Witness for C7: a short leg's ratchet does not increase on the mark 80
after [90, 95]; a long leg's does not decrease on the mark 95 after
[105]. -/
theorem c7_best_fav_monotone_witness :
    (is_short (str ("Sell")) = true ∧
      best_fav_after (str ("Sell")) 100 ((90 : ℚ) :: 95 :: [] ++ (80 : ℚ) :: []) ≤
        best_fav_after (str ("Sell")) 100 ((90 : ℚ) :: 95 :: [])) ∧
    (is_short (str ("Buy")) = false ∧
      best_fav_after (str ("Buy")) 100 ((105 : ℚ) :: []) ≤
        best_fav_after (str ("Buy")) 100 ((105 : ℚ) :: [] ++ (95 : ℚ) :: [])) := by
  refine ⟨⟨by decide, ?_⟩, ⟨by decide, ?_⟩⟩
  · exact (c7_best_fav_monotone (str ("Sell")) 100 ((90 : ℚ) :: 95 :: []) 80).1 (by decide)
  · exact (c7_best_fav_monotone (str ("Buy")) 100 ((105 : ℚ) :: []) 95).2 (by decide)

/-- Claim C1 (code evaluated at the failing input): a short leg entered at
premium 100 and exited at 75 — the favourable TARGET direction by the
engine's own target predicate, third conjunct — is emitted with
`pnl = pnl_after_cost = -1875` at zero costs, the negation of
`(exit - entry) x sign(position) x qty = (75 - 100) x (-1) x 75 = +1875`
that the specification prescribes. -/
theorem c1_pnl_sign_flipped :
    (emit_row cfgPartial c1Leg).pnl = -1875 ∧
    (emit_row cfgPartial c1Leg).pnlAfterCost = -1875 ∧
    hit_target_eng { enabled := true, basis := str ("premium_pct"), value := 25 }
      (str ("Sell")) 100 0 75 0 = true := by
  have hfloor : ⌊(-187500 : ℚ)⌋ = -187500 := by
    rw [show ((-187500 : ℚ)) = ((-187500 : ℤ) : ℚ) by norm_num, Int.floor_intCast]
  have hrhe : round_half_even (-187500 : ℚ) = -187500 := by
    simp only [round_half_even, hfloor]
    norm_num
  have hr2 : round2 (-1875 : ℚ) = -1875 := by
    rw [round2, show (100 * (-1875 : ℚ)) = -187500 by norm_num, hrhe]
    norm_num
  have hshort : is_short (str ("Sell")) = true := by decide
  have hpnl : (emit_row cfgPartial c1Leg).pnl = round2 (-1875) := by
    simp only [emit_row, cfgPartial, c1Leg, sellSpec, mkLiveLeg, hshort,
      Option.getD_some, if_true]
    congr 1
    norm_num
  have hnet : (emit_row cfgPartial c1Leg).pnlAfterCost = round2 (-1875) := by
    simp only [emit_row, cfgPartial, c1Leg, sellSpec, mkLiveLeg, hshort,
      Option.getD_some, if_true]
    congr 1
    norm_num
  refine ⟨by rw [hpnl, hr2], by rw [hnet, hr2], ?_⟩
  have hb : pyLower (str ("premium_pct")) = str ("premium_pct") := by decide
  simp only [hit_target_eng, hshort, hb]
  norm_num

/-- A leg with both re-entry counters at zero satisfies the cap
invariant. -/
lemma counters_ok_of_zero (leg : LiveLeg) (h1 : leg.reSlCount = 0)
    (h2 : leg.reTgtCount = 0) : counters_ok leg := by
  constructor
  · rw [h1]
    exact le_min (by norm_num) (le_max_left _ _)
  · rw [h2]
    exact le_min (by norm_num) (le_max_left _ _)

/-- `spawn_finish` preserves the cap invariant on the parent (given that
the incremented counter has headroom) and spawns only fresh legs. -/
lemma spawn_finish_counters (cfg : StrategyConfig) (env : SnapEnv) (liveLen : ℕ)
    (pending : List PendingReEntry) (leg : LiveLeg) (reason mode : List Char)
    (spec : LegSpec) (h : counters_ok leg)
    (hS : reason = str ("SL") →
      ((leg.reSlCount : ℤ) + 1) ≤
        min 20 (max 0 (reentry_from_any leg.spec.reentryOnSl).maxCount))
    (hT : ¬ reason = str ("SL") →
      ((leg.reTgtCount : ℤ) + 1) ≤
        min 20 (max 0 (reentry_from_any leg.spec.reentryOnTarget).maxCount)) :
    counters_ok (spawn_finish cfg env liveLen pending leg reason mode spec).parent ∧
    ∀ nl, (spawn_finish cfg env liveLen pending leg reason mode spec).spawned = some nl →
      counters_ok nl := by
  unfold spawn_finish
  by_cases h6 : (pyStarts mode (str ("RE_ASAP")) = true ∨ mode = str ("LAZY_LEG"))
  · rw [if_pos h6]
    cases hsel : env.spawnSelect spec with
    | none => simp only [hsel]; exact ⟨h, fun nl hnl => Option.noConfusion hnl⟩
    | some kpx =>
      simp only [hsel]
      by_cases hrs : reason = str ("SL")
      · rw [if_pos hrs]
        refine ⟨⟨?_, h.2⟩, ?_⟩
        · push_cast
          exact hS hrs
        · intro nl hnl
          simp only [Option.some.injEq] at hnl
          subst hnl
          exact counters_ok_of_zero _ (by simp [mkLiveLeg]) (by simp [mkLiveLeg])
      · rw [if_neg hrs]
        refine ⟨⟨h.1, ?_⟩, ?_⟩
        · push_cast
          exact hT hrs
        · intro nl hnl
          simp only [Option.some.injEq] at hnl
          subst hnl
          exact counters_ok_of_zero _ (by simp [mkLiveLeg]) (by simp [mkLiveLeg])
  · rw [if_neg h6]
    by_cases hrs : reason = str ("SL")
    · rw [if_pos hrs]
      refine ⟨⟨?_, h.2⟩, fun nl hnl => Option.noConfusion hnl⟩
      push_cast
      exact hS hrs
    · rw [if_neg hrs]
      refine ⟨⟨h.1, ?_⟩, fun nl hnl => Option.noConfusion hnl⟩
      push_cast
      exact hT hrs

set_option maxHeartbeats 1000000 in
/-- `_spawn_or_queue_reentry` preserves the cap invariant: an increment
happens only after the matching cap guard has passed. -/
lemma spawn_counters (cfg : StrategyConfig) (env : SnapEnv) (liveLen : ℕ)
    (pending : List PendingReEntry) (leg : LiveLeg) (reason : List Char)
    (hr : reason = str ("SL") ∨ reason = str ("TARGET"))
    (h : counters_ok leg) :
    counters_ok (spawn_or_queue_reentry cfg env liveLen pending leg reason).parent ∧
    ∀ nl, (spawn_or_queue_reentry cfg env liveLen pending leg reason).spawned = some nl →
      counters_ok nl := by
  rcases hr with hrr | hrr <;> subst hrr
  · have hif : (if str ("SL") = str ("SL") then leg.spec.reentryOnSl
        else leg.spec.reentryOnTarget) = leg.spec.reentryOnSl := if_pos rfl
    have hne : (str ("SL") = str ("TARGET")) = False := eq_false (by decide)
    simp only [spawn_or_queue_reentry, hne, eq_self_iff_true, true_and,
      false_and, if_false, if_true]
    by_cases h1 : ¬ (reentry_from_any leg.spec.reentryOnSl).enabled = true
    · rw [if_pos h1]
      exact ⟨h, fun _ hnl => by simp at hnl⟩
    rw [if_neg h1]
    by_cases h2 : (reentry_from_any leg.spec.reentryOnSl).maxCount ≤ 0
    · rw [if_pos h2]
      exact ⟨h, fun _ hnl => by simp at hnl⟩
    rw [if_neg h2]
    by_cases h3 : 20 ⊓ (reentry_from_any leg.spec.reentryOnSl).maxCount ≤
      (leg.reSlCount : ℤ)
    · rw [if_pos h3]
      exact ⟨h, fun _ hnl => by simp at hnl⟩
    rw [if_neg h3]
    by_cases h4 : cfg.noReentryAfter.isSome = true ∧ env.cutoffReached = true
    · rw [if_pos h4]
      exact ⟨h, fun _ hnl => by simp at hnl⟩
    rw [if_neg h4]
    refine spawn_finish_counters cfg env liveLen pending leg _ _ _ h ?_ ?_
    · intro _
      have hlt : (leg.reSlCount : ℤ) <
          min 20 (reentry_from_any leg.spec.reentryOnSl).maxCount :=
        lt_of_not_le h3
      have hpos : (0 : ℤ) < (reentry_from_any leg.spec.reentryOnSl).maxCount :=
        lt_of_not_le h2
      rw [max_eq_right hpos.le]
      have hb := lt_min_iff.mp hlt
      exact le_min (by omega) (by omega)
    · intro hcon
      exact absurd rfl hcon
  · have hif : (if str ("TARGET") = str ("SL") then leg.spec.reentryOnSl
        else leg.spec.reentryOnTarget) = leg.spec.reentryOnTarget :=
      if_neg (by decide)
    have hne : (str ("TARGET") = str ("SL")) = False := eq_false (by decide)
    simp only [spawn_or_queue_reentry, hne, eq_self_iff_true, true_and,
      false_and, if_false, if_true]
    by_cases h1 : ¬ (reentry_from_any leg.spec.reentryOnTarget).enabled = true
    · rw [if_pos h1]
      exact ⟨h, fun _ hnl => by simp at hnl⟩
    rw [if_neg h1]
    by_cases h2 : (reentry_from_any leg.spec.reentryOnTarget).maxCount ≤ 0
    · rw [if_pos h2]
      exact ⟨h, fun _ hnl => by simp at hnl⟩
    rw [if_neg h2]
    by_cases h3 : 20 ⊓ (reentry_from_any leg.spec.reentryOnTarget).maxCount ≤
      (leg.reTgtCount : ℤ)
    · rw [if_pos h3]
      exact ⟨h, fun _ hnl => by simp at hnl⟩
    rw [if_neg h3]
    by_cases h4 : cfg.noReentryAfter.isSome = true ∧ env.cutoffReached = true
    · rw [if_pos h4]
      exact ⟨h, fun _ hnl => by simp at hnl⟩
    rw [if_neg h4]
    refine spawn_finish_counters cfg env liveLen pending leg _ _ _ h ?_ ?_
    · intro hcon
      exact absurd hcon (by decide)
    · intro _
      have hlt : (leg.reTgtCount : ℤ) <
          min 20 (reentry_from_any leg.spec.reentryOnTarget).maxCount :=
        lt_of_not_le h3
      have hpos : (0 : ℤ) < (reentry_from_any leg.spec.reentryOnTarget).maxCount :=
        lt_of_not_le h2
      rw [max_eq_right hpos.le]
      have hb := lt_min_iff.mp hlt
      exact le_min (by omega) (by omega)

set_option maxHeartbeats 1000000 in
/-- `process_leg` preserves the cap invariant on its parent leg and
spawns only cap-respecting legs. -/
lemma process_leg_counters (cfg : StrategyConfig) (env : SnapEnv) (liveLen : ℕ)
    (pending : List PendingReEntry) (leg : LiveLeg) (h : counters_ok leg) :
    counters_ok (process_leg cfg env liveLen pending leg).parent ∧
    ∀ nl, (process_leg cfg env liveLen pending leg).spawned = some nl →
      counters_ok nl := by
  unfold process_leg
  cases hq : lookup_quote env.quotes (pyUpper leg.spec.optionType) leg.strike with
  | none => exact ⟨h, fun _ hnl => Option.noConfusion hnl⟩
  | some px =>
    simp only [hq]
    split_ifs <;>
      first
      | exact ⟨h, fun _ hnl => by simp at hnl⟩
      | exact spawn_counters cfg env liveLen pending _ _ (Or.inl rfl) h
      | exact spawn_counters cfg env liveLen pending _ _ (Or.inr rfl) h
      | (rename_i hcond
         rcases hcond with ⟨hne2, hor⟩
         rcases hor with hx | hx <;> simp at hx <;> exact absurd hx (by decide))
      | (rename_i hcond
         exact absurd (by assumption : leg.exitTs = none) (by simpa using hcond.1))

/-- The whole per-snapshot leg pass preserves the cap invariant on every
processed and every spawned leg. -/
lemma process_legs_counters (cfg : StrategyConfig) (env : SnapEnv) (origLen : ℕ) :
    ∀ (legs spawned : List LiveLeg) (pending : List PendingReEntry),
      (∀ leg ∈ legs, counters_ok leg) → (∀ leg ∈ spawned, counters_ok leg) →
      (∀ leg ∈ (process_legs cfg env origLen legs spawned pending).1, counters_ok leg) ∧
      (∀ leg ∈ (process_legs cfg env origLen legs spawned pending).2.1, counters_ok leg) := by
  intro legs
  induction legs with
  | nil =>
    intro spawned pending h1 h2
    refine ⟨?_, ?_⟩
    · intro leg hm
      simp [process_legs] at hm
    · intro leg hm
      simp only [process_legs] at hm
      exact h2 leg hm
  | cons a rest ih =>
    intro spawned pending h1 h2
    have hpl := process_leg_counters cfg env (origLen + spawned.length) pending a
      (h1 a (by simp))
    have hsp2 : ∀ leg ∈ spawned ++ (process_leg cfg env (origLen + spawned.length)
        pending a).spawned.toList, counters_ok leg := by
      intro leg hm
      rcases List.mem_append.mp hm with hmm | hmm
      · exact h2 leg hmm
      · rcases Option.mem_toList.mp hmm with heq
        exact hpl.2 leg heq
    have hrest := ih (spawned ++ (process_leg cfg env (origLen + spawned.length)
        pending a).spawned.toList)
      (process_leg cfg env (origLen + spawned.length) pending a).pending
      (fun leg hm => h1 leg (List.mem_cons_of_mem a hm)) hsp2
    refine ⟨?_, ?_⟩
    · intro leg hm
      simp only [process_legs] at hm
      rcases List.mem_cons.mp hm with hmm | hmm
      · rw [hmm]
        exact hpl.1
      · exact hrest.1 leg hmm
    · intro leg hm
      simp only [process_legs] at hm
      exact hrest.2 leg hm

/-- Every leg spawned by a pending-re-entry resolution is fresh and
therefore cap-respecting. -/
lemma resolve_pending_counters (cfg : StrategyConfig) (env : SnapEnv)
    (liveLen : ℕ) (pen : PendingReEntry) :
    ∀ nl, resolve_pending cfg env liveLen pen = some nl → counters_ok nl := by
  intro nl hnl
  unfold resolve_pending at hnl
  by_cases h1 : pyStarts pen.mode (str ("RE_MOMENTUM")) = true
  · rw [if_pos h1] at hnl
    by_cases h2 : cfg.overallMomentumPoints.getD 0 ≤ 0
    · rw [if_pos h2] at hnl
      exact Option.noConfusion hnl
    · rw [if_neg h2] at hnl
      cases hsel : env.spawnSelect pen.spec with
      | none => rw [hsel] at hnl; exact Option.noConfusion hnl
      | some kpx =>
        rw [hsel] at hnl
        simp only [] at hnl
        by_cases h3 : pen.watchPrice + cfg.overallMomentumPoints.getD 0 ≤ kpx.2
        · rw [if_pos h3] at hnl
          simp only [Option.some.injEq] at hnl
          subst hnl
          exact counters_ok_of_zero _ (by simp [mkLiveLeg]) (by simp [mkLiveLeg])
        · rw [if_neg h3] at hnl
          exact Option.noConfusion hnl
  · rw [if_neg h1] at hnl
    by_cases h2 : pyStarts pen.mode (str ("RE_COST")) = true
    · rw [if_pos h2] at hnl
      cases hws : pen.watchStrike with
      | none => rw [hws] at hnl; exact Option.noConfusion hnl
      | some wk =>
        rw [hws] at hnl
        simp only [] at hnl
        cases hq : lookup_quote env.quotes (pyUpper pen.spec.optionType) wk with
        | none => rw [hq] at hnl; exact Option.noConfusion hnl
        | some ltp =>
          rw [hq] at hnl
          simp only [] at hnl
          split_ifs at hnl <;>
            first
            | exact Option.noConfusion hnl
            | (simp only [Option.some.injEq] at hnl
               subst hnl
               exact counters_ok_of_zero _ (by simp [mkLiveLeg]) (by simp [mkLiveLeg]))
    · rw [if_neg h2] at hnl
      exact Option.noConfusion hnl

/-- The pending pass spawns only cap-respecting legs. -/
lemma step_pending_counters (cfg : StrategyConfig) (env : SnapEnv) :
    ∀ (pens : List PendingReEntry) (liveLen : ℕ),
      ∀ leg ∈ (step_pending cfg env pens liveLen).1, counters_ok leg := by
  intro pens
  induction pens with
  | nil =>
    intro liveLen leg hm
    simp [step_pending] at hm
  | cons pen rest ih =>
    intro liveLen leg hm
    simp only [step_pending] at hm
    cases hres : resolve_pending cfg env liveLen pen with
    | some nl =>
      rw [hres] at hm
      simp only [] at hm
      rcases List.mem_cons.mp hm with hmm | hmm
      · rw [hmm]
        exact resolve_pending_counters cfg env liveLen pen nl hres
      · exact ih (liveLen + 1) leg hmm
    | none =>
      rw [hres] at hm
      simp only [] at hm
      exact ih liveLen leg hm

/-- A Complete-mode force close never touches counters or the spec. -/
lemma force_close_counters (env : SnapEnv) (leg : LiveLeg)
    (h : counters_ok leg) : counters_ok (force_close env leg) := by
  unfold force_close
  by_cases h1 : leg.exitTs = none
  · rw [if_pos h1]
    cases lookup_quote env.quotes (pyUpper leg.spec.optionType) leg.strike with
    | none => exact h
    | some px => exact ⟨h.1, h.2⟩
  · rw [if_neg h1]
    exact h

/-- Every leg live after the two passes of one snapshot satisfies the cap
invariant. -/
lemma live_after_counters (cfg : StrategyConfig) (env : SnapEnv)
    (st : EngineState) (h : ∀ leg ∈ st.live, counters_ok leg) :
    ∀ leg ∈ live_after cfg env st, counters_ok leg := by
  have hpl := process_legs_counters cfg env st.live.length st.live [] st.pending h
    (by intro leg hm; simp at hm)
  intro leg hm
  unfold live_after snapshot_core at hm
  rcases List.mem_append.mp hm with hmm | hmm
  · rcases List.mem_append.mp hmm with hmm2 | hmm2
    · exact hpl.1 leg hmm2
    · exact hpl.2 leg hmm2
  · exact step_pending_counters cfg env _ _ leg hmm

/-- One snapshot of the day loop preserves the cap invariant for every
live leg. -/
lemma snapshot_step_counters (cfg : StrategyConfig) (env : SnapEnv)
    (st : EngineState) (h : ∀ leg ∈ st.live, counters_ok leg) :
    ∀ leg ∈ (snapshot_step cfg env st).live, counters_ok leg := by
  intro leg hm
  unfold snapshot_step at hm
  split_ifs at hm with h1 h2
  · exact h leg hm
  · rcases List.mem_map.mp hm with ⟨l0, hl0, rfl⟩
    exact force_close_counters env l0 (live_after_counters cfg env st h l0 hl0)
  · exact live_after_counters cfg env st h leg hm

/-- Claim C6 (counterexample): with a rule whose configured `max_count` is
negative (nothing validates the sign), a freshly created leg's
`re_sl_count` of 0 already exceeds `min(20, max_count) = max_count < 0`,
so the bound as stated does not hold. -/
theorem c6_counterexample :
    min 20 (reentry_from_any (mkLiveLeg 1 specNegCap 100 75).spec.reentryOnSl).maxCount <
      ((mkLiveLeg 1 specNegCap 100 75).reSlCount : ℤ) := by
  simp only [mkLiveLeg, specNegCap, reentry_from_any, Option.getD_some]
  rw [min_eq_right (by norm_num : (-1 : ℤ) ≤ 20)]
  norm_num

/-- Claim C6 (amended): for every engine state whose legs satisfy the cap
invariant (in particular the session-start state, whose counters are all
zero) and every snapshot sequence, every live leg of every reachable
state keeps `re_sl_count` and `re_tgt_count` within
`min(20, max(0, max_count))` of its corresponding re-entry rule: each
counter is incremented only on a successful spawn or enqueue, and the
spawn/enqueue is refused once the counter has reached the cap. -/
theorem c6_reentry_caps :
    ∀ (cfg : StrategyConfig) (envs : List SnapEnv) (st : EngineState),
      (∀ leg ∈ st.live, counters_ok leg) →
      ∀ leg ∈ (run_snapshots cfg envs st).live, counters_ok leg := by
  intro cfg envs
  induction envs with
  | nil => intro st h; exact h
  | cons e rest ih =>
    intro st h
    simp only [run_snapshots, List.foldl_cons]
    exact ih (snapshot_step cfg e st) (snapshot_step_counters cfg e st h)

/-- Witness for C6 (amended): a fresh one-leg session state satisfies the
invariant, and it is preserved across the `env1` snapshot. -/
theorem c6_reentry_caps_witness :
    (∀ leg ∈ (EngineState.mk (mkLiveLeg 1 (sellSpec riskOff) 100 75 :: []) [] false).live,
      counters_ok leg) ∧
    ∀ leg ∈ (run_snapshots cfgComplete (env1 :: [])
        (EngineState.mk (mkLiveLeg 1 (sellSpec riskOff) 100 75 :: []) [] false)).live,
      counters_ok leg := by
  have hpre : ∀ leg ∈ (EngineState.mk (mkLiveLeg 1 (sellSpec riskOff) 100 75 :: []) []
      false).live, counters_ok leg := by
    intro leg hm
    rcases List.mem_singleton.mp hm with rfl
    exact counters_ok_of_zero _ rfl rfl
  exact ⟨hpre, c6_reentry_caps cfgComplete (env1 :: []) _ hpre⟩


/-- A force close leaves the option type and strike of a leg unchanged,
and leaves a leg open only when the snapshot has no quote for it. -/
lemma force_close_closed (env : SnapEnv) (leg : LiveLeg)
    (hopen : (force_close env leg).exitTs = none) :
    lookup_quote env.quotes (pyUpper (force_close env leg).spec.optionType)
      (force_close env leg).strike = none := by
  unfold force_close at hopen ⊢
  by_cases h1 : leg.exitTs = none
  · rw [if_pos h1] at hopen ⊢
    cases hq : lookup_quote env.quotes (pyUpper leg.spec.optionType) leg.strike with
    | none => rw [hq] at hopen ⊢
    | some px =>
      rw [hq] at hopen
      simp at hopen
  · rw [if_neg h1] at hopen ⊢
    exact absurd hopen h1

/-- Claim C3 (amended): in Complete square-off mode, at any snapshot after
which some live leg carries an SL or TARGET hit (a TRAIL exit does not
qualify — see the counterexample), the session ends at once with no
further snapshots or re-entries processed, and every leg that is still
open afterwards is one whose contract had no quote at this snapshot:
every quoted open leg was force-closed at the snapshot's mark (tagged
TIME when it had no exit reason of its own, by `force_close`). -/
theorem c3_complete_square_off :
    ∀ (cfg : StrategyConfig) (env : SnapEnv) (st : EngineState),
      st.ended = false →
      pyStarts (pyLower cfg.squareOffMode) (str ("complete")) = true →
      ((snapshot_step cfg env st).live.any (fun l => l.hitSl || l.hitTarget)) = true →
      (snapshot_step cfg env st).ended = true ∧
      ∀ leg ∈ (snapshot_step cfg env st).live, leg.exitTs = none →
        lookup_quote env.quotes (pyUpper leg.spec.optionType) leg.strike = none := by
  intro cfg env st hend hmode htrig
  have hcond : ¬ st.ended = true := by
    rw [hend]
    simp
  by_cases hany : (live_after cfg env st).any (fun l => l.hitSl || l.hitTarget) = true
  · have hstep : snapshot_step cfg env st =
        { live := (live_after cfg env st).map (force_close env),
          pending := pending_after cfg env st, ended := true } := by
      unfold snapshot_step
      rw [if_neg hcond, if_pos ⟨hmode, hany⟩]
    rw [hstep]
    refine ⟨rfl, ?_⟩
    intro leg hm hopen
    rcases List.mem_map.mp hm with ⟨l0, _, rfl⟩
    exact force_close_closed env l0 hopen
  · exfalso
    have hstep : snapshot_step cfg env st =
        { live := live_after cfg env st, pending := pending_after cfg env st,
          ended := st.ended } := by
      unfold snapshot_step
      rw [if_neg hcond, if_neg (fun hc => hany hc.2)]
    rw [hstep] at htrig
    exact hany htrig

/-- A leg whose SL re-entry rule is absent is returned unchanged by
`_spawn_or_queue_reentry` (the default rule is disabled). -/
lemma spawn_disabled_sl (cfg : StrategyConfig) (env : SnapEnv) (m : ℕ)
    (p : List PendingReEntry) (lg : LiveLeg) (h : lg.spec.reentryOnSl = none) :
    spawn_or_queue_reentry cfg env m p lg (str ("SL")) = ⟨lg, none, p⟩ := by
  simp [spawn_or_queue_reentry, h, reentry_from_any]

/-- Evaluation of the leg pass on `trailLeg` at the `env1` snapshot: the
mark 100 trips only the trailing stop, and a TRAIL exit spawns no
re-entry. -/
lemma process_leg_trailLeg (n : ℕ) (pending : List PendingReEntry) :
    process_leg cfgComplete env1 n pending trailLeg = ⟨trailLegExit, none, pending⟩ := by
  have hq : lookup_quote env1.quotes (pyUpper trailLeg.spec.optionType) trailLeg.strike
      = some 100 := by decide
  have htgtF : hit_target_eng trailLeg.spec.risk.target trailLeg.spec.position
      trailLeg.entryPx trailLeg.entryS 100 env1.underlying = false := by decide
  have hslF : hit_stop_eng trailLeg.spec.risk.sl trailLeg.spec.position
      trailLeg.entryPx trailLeg.entryS 100 env1.underlying = false := by decide
  have hupd : update_best_fav trailLeg.spec.position trailLeg.entryPx trailLeg.bestFavPx 100
      = 80 := by decide
  have htrT : trail_stop_eng trailLeg.spec.risk.trail trailLeg.spec.position (some 80) 100
      = true := by
    have hb : pyLower (str ("points")) = str ("points")  := by decide
    have hs : is_short trailLeg.spec.position = true := by decide
    rw [show trailLeg.spec.risk.trail =
      ({ enabled := true, basis := str ("points"), value := 5 } : TrailRule) from rfl]
    simp only [trail_stop_eng, hb, hs]
    norm_num
  have hs2 : is_short trailLeg.spec.position = true := by decide
  have hne1 : ¬ (str ("TRAIL")) = (str ("SL")) := by decide
  have hne2 : ¬ (str ("TRAIL")) = (str ("TARGET")) := by decide
  simp only [process_leg, hq, show trailLeg.exitTs = none from rfl, hupd, htgtF, hslF, htrT]
  simp [hne1, hne2, hs2]
  simp only [trailLegExit, trailLeg, mkLiveLeg, sellSpec, riskTrail5, critATM, env1,
    LiveLeg.mk.injEq]
  norm_num

/-- Evaluation of the leg pass on `idleLeg` at the `env1` snapshot: every
exit is disabled, so the leg is unchanged (its PnL and ratchet keep
their values). -/
lemma process_leg_idleLeg (n : ℕ) (pending : List PendingReEntry) :
    process_leg cfgComplete env1 n pending idleLeg = ⟨idleLeg, none, pending⟩ := by
  have hq : lookup_quote env1.quotes (pyUpper idleLeg.spec.optionType) idleLeg.strike
      = some 50 := by decide
  have htgtF : hit_target_eng idleLeg.spec.risk.target idleLeg.spec.position
      idleLeg.entryPx idleLeg.entryS 50 env1.underlying = false := by decide
  have hslF : hit_stop_eng idleLeg.spec.risk.sl idleLeg.spec.position
      idleLeg.entryPx idleLeg.entryS 50 env1.underlying = false := by decide
  have hupd : update_best_fav idleLeg.spec.position idleLeg.entryPx idleLeg.bestFavPx 50
      = 50 := by decide
  have htrF : trail_stop_eng idleLeg.spec.risk.trail idleLeg.spec.position (some 50) 50
      = false := by decide
  have hs2 : is_short idleLeg.spec.position = true := by decide
  simp only [process_leg, hq, show idleLeg.exitTs = none from rfl,
    show idleLeg.exitReason = none from rfl, hupd, htgtF, hslF, htrF]
  simp [hs2]
  simp only [idleLeg, mkLiveLeg, sellSpec, riskOff, critATM, env1, LiveLeg.mk.injEq]
  norm_num

/-- Evaluation of the leg pass on `slLeg` at the `env1` snapshot: the
20-point premium loss trips the 10-point SL, and the re-entry call
returns the leg unchanged because no SL re-entry rule is configured. -/
lemma process_leg_slLeg (n : ℕ) (pending : List PendingReEntry) :
    process_leg cfgComplete env1 n pending slLeg = ⟨slLegExit, none, pending⟩ := by
  have hq : lookup_quote env1.quotes (pyUpper slLeg.spec.optionType) slLeg.strike
      = some 100 := by decide
  have htgtF : hit_target_eng slLeg.spec.risk.target slLeg.spec.position
      slLeg.entryPx slLeg.entryS 100 env1.underlying = false := by decide
  have hupd : update_best_fav slLeg.spec.position slLeg.entryPx slLeg.bestFavPx 100
      = 80 := by decide
  have hstT : hit_stop_eng slLeg.spec.risk.sl slLeg.spec.position
      slLeg.entryPx slLeg.entryS 100 env1.underlying = true := by
    have hb : pyLower (str ("premium_pts")) = str ("premium_pts") := by decide
    have hs : is_short slLeg.spec.position = true := by decide
    rw [show slLeg.spec.risk.sl =
      ({ enabled := true, basis := str ("premium_pts"), value := 10 } : RiskRule) from rfl,
      show slLeg.entryPx = (80:ℚ) from rfl, show slLeg.entryS = (0:ℚ) from rfl,
      show env1.underlying = (0:ℚ) from rfl]
    simp only [hit_stop_eng, hb, hs]
    norm_num
  have hs2 : is_short slLeg.spec.position = true := by decide
  simp only [process_leg, hq, show slLeg.exitTs = none from rfl, hupd, htgtF, hstT,
    Option.getD_some]
  simp [hs2]
  rw [spawn_disabled_sl cfgComplete env1 n pending _ rfl]
  simp only [slLegExit, slLeg, mkLiveLeg, sellSpec, riskSl10, critATM, env1,
    LiveLeg.mk.injEq]
  norm_num

/-- The leg pass over `[trailLeg, idleLeg]` at `env1`. -/
lemma snapshot_core_cx :
    snapshot_core cfgComplete env1 ⟨trailLeg :: idleLeg :: [], [], false⟩ =
      (trailLegExit :: idleLeg :: [], [], []) := by
  simp only [snapshot_core, process_legs, process_leg_trailLeg, process_leg_idleLeg,
    Option.toList_none, List.append_nil, List.nil_append]

/-- The `live` list after both passes on `[trailLeg, idleLeg]`. -/
lemma live_after_cx :
    live_after cfgComplete env1 ⟨trailLeg :: idleLeg :: [], [], false⟩ =
      trailLegExit :: idleLeg :: [] := by
  simp only [live_after, snapshot_core_cx, step_pending, List.append_nil]

/-- The pending queue after both passes on `[trailLeg, idleLeg]`. -/
lemma pending_after_cx :
    pending_after cfgComplete env1 ⟨trailLeg :: idleLeg :: [], [], false⟩ = [] := by
  simp only [pending_after, snapshot_core_cx, step_pending, List.append_nil]

/-- The full snapshot on `[trailLeg, idleLeg]`: the TRAIL exit does not
set `hit_sl`/`hit_target`, so Complete mode does not square off. -/
lemma snapshot_step_cx :
    snapshot_step cfgComplete env1 ⟨trailLeg :: idleLeg :: [], [], false⟩ =
      ⟨trailLegExit :: idleLeg :: [], [], false⟩ := by
  have hany : (trailLegExit :: idleLeg :: []).any (fun l => l.hitSl || l.hitTarget)
      = false := by decide
  simp only [snapshot_step, live_after_cx, pending_after_cx, hany]
  simp

/-- The leg pass over `[slLeg, idleLeg]` at `env1`. -/
lemma snapshot_core_w :
    snapshot_core cfgComplete env1 ⟨slLeg :: idleLeg :: [], [], false⟩ =
      (slLegExit :: idleLeg :: [], [], []) := by
  simp only [snapshot_core, process_legs, process_leg_slLeg, process_leg_idleLeg,
    Option.toList_none, List.append_nil, List.nil_append]

/-- A force close leaves the already-closed `slLegExit` unchanged. -/
lemma force_close_slLegExit : force_close env1 slLegExit = slLegExit := by
  simp [force_close, show slLegExit.exitTs = some 1 from rfl]

/-- A force close exits the still-open `idleLeg` at its mark 50 with
reason TIME. -/
lemma force_close_idleLeg : force_close env1 idleLeg = idleLegClosed := by
  have hq : lookup_quote env1.quotes (pyUpper idleLeg.spec.optionType) idleLeg.strike
      = some 50 := by decide
  simp only [force_close, show idleLeg.exitTs = none from rfl, hq,
    show idleLeg.exitReason = none from rfl]
  simp [idleLegClosed, show env1.ts = 1 from rfl]

/-- The full snapshot on `[slLeg, idleLeg]`: the SL hit triggers the
Complete-mode square-off, force-closing `idleLeg` and ending the
session. -/
lemma snapshot_step_w :
    snapshot_step cfgComplete env1 ⟨slLeg :: idleLeg :: [], [], false⟩ =
      ⟨slLegExit :: idleLegClosed :: [], [], true⟩ := by
  have hlive : live_after cfgComplete env1 ⟨slLeg :: idleLeg :: [], [], false⟩ =
      slLegExit :: idleLeg :: [] := by
    simp only [live_after, snapshot_core_w, step_pending, List.append_nil]
  have hpend : pending_after cfgComplete env1 ⟨slLeg :: idleLeg :: [], [], false⟩ = [] := by
    simp only [pending_after, snapshot_core_w, step_pending, List.append_nil]
  have hany : (slLegExit :: idleLeg :: []).any (fun l => l.hitSl || l.hitTarget)
      = true := by decide
  have hmode : pyStarts (pyLower cfgComplete.squareOffMode) (str ("complete")) = true := by
    decide
  simp only [snapshot_step, hlive, hpend, hany, hmode]
  simp [force_close_slLegExit, force_close_idleLeg]

/-- Counterexample to Claim C3 as stated: in Complete mode, at a snapshot
where `trailLeg` transitions to Closed with exit reason TRAIL, the other
open leg (`idleLeg`, which has a quote, close 50) is NOT force-closed and
the session does NOT end — the square-off condition tests only
`hit_sl`/`hit_target`, so a TRAIL exit never triggers it. -/
theorem c3_counterexample :
    pyStarts (pyLower cfgComplete.squareOffMode) (str ("complete")) = true ∧
    snapshot_step cfgComplete env1 ⟨trailLeg :: idleLeg :: [], [], false⟩ =
      ⟨trailLegExit :: idleLeg :: [], [], false⟩ ∧
    trailLegExit.exitTs = some env1.ts ∧
    trailLegExit.exitReason = some (str ("TRAIL")) ∧
    idleLeg.exitTs = none ∧
    lookup_quote env1.quotes (pyUpper idleLeg.spec.optionType) idleLeg.strike = some 50 :=
  ⟨by decide, snapshot_step_cx, rfl, rfl, rfl, by decide⟩

/-- Witness for C3 (amended): on the state `[slLeg, idleLeg]` the `env1`
snapshot trips `slLeg`'s stop-loss, the hypotheses of the amended claim
hold concretely, and the session ends with every quoted open leg
force-closed. -/
theorem c3_complete_square_off_witness :
    ((⟨slLeg :: idleLeg :: [], [], false⟩ : EngineState).ended = false ∧
     pyStarts (pyLower cfgComplete.squareOffMode) (str ("complete")) = true ∧
     ((snapshot_step cfgComplete env1 ⟨slLeg :: idleLeg :: [], [], false⟩).live.any
        (fun l => l.hitSl || l.hitTarget)) = true) ∧
    ((snapshot_step cfgComplete env1 ⟨slLeg :: idleLeg :: [], [], false⟩).ended = true ∧
     ∀ leg ∈ (snapshot_step cfgComplete env1 ⟨slLeg :: idleLeg :: [], [], false⟩).live,
       leg.exitTs = none →
       lookup_quote env1.quotes (pyUpper leg.spec.optionType) leg.strike = none) := by
  have htrig : ((snapshot_step cfgComplete env1 ⟨slLeg :: idleLeg :: [], [], false⟩).live.any
      (fun l => l.hitSl || l.hitTarget)) = true := by
    rw [snapshot_step_w]
    decide
  exact ⟨⟨rfl, by decide, htrig⟩,
    c3_complete_square_off cfgComplete env1 _ rfl (by decide) htrig⟩

/-- Claim C8: `select_strike` signals a selection error (returning no
strike) when the chain filtered to the requested option type is empty
(first conjunct, any mode), when a delta-dependent mode (CLOSEST_DELTA or
DELTA_RANGE) cannot resolve an expiry from its parameters or the chain
(second conjunct), and when the requested delta range contains no
candidate strikes (third conjunct, stated for any resolved expiry and
any delta-completed chain). -/
theorem c8_selection_errors :
    ∀ (pm : MathPrims) (envNow : ℚ) (chain : List ORow) (ot : List Char) (atm : ℚ)
      (crit : StrikeCriteria),
      ((chain.filter (fun r => decide (pyUpper r.optionType = pyUpper ot))).isEmpty = true →
        ∃ e, select_strike pm envNow chain ot atm crit = .error e) ∧
      ((pyUpper crit.mode = str ("CLOSEST_DELTA") ∨ pyUpper crit.mode = str ("DELTA_RANGE")) →
        infer_expiry_dt chain crit.params = none →
        ∃ e, select_strike pm envNow chain ot atm crit = .error e) ∧
      (pyUpper crit.mode = str ("DELTA_RANGE") →
        ∀ (expiryDt : ℚ) (full : List ORow),
        infer_expiry_dt chain crit.params = some expiryDt →
        ensure_delta pm chain atm expiryDt
          (crit.params.riskFree.getD (crit.params.rIr.getD (6/100)))
          (crit.params.divYield.getD (crit.params.qDy.getD 0))
          (crit.params.nowDt.getD envNow) (crit.params.minPrice.getD (1/100)) = some full →
        (delta_range_cands
          (full.filter (fun r => decide (pyUpper r.optionType = pyUpper ot)))
          (crit.params.lower.getD 0) (crit.params.upper.getD 100)).isEmpty = true →
        ∃ e, select_strike pm envNow chain ot atm crit = .error e) := by
  intro pm envNow chain ot atm crit
  refine ⟨?_, ?_, ?_⟩
  · intro h
    refine ⟨str ("No rows for the requested option type"), ?_⟩
    simp only [select_strike, h]
    rfl
  · intro hmode hexp
    by_cases hdf : (chain.filter (fun r => decide (pyUpper r.optionType = pyUpper ot))).isEmpty
      = true
    · refine ⟨str ("No rows for the requested option type"), ?_⟩
      simp only [select_strike, hdf]
      rfl
    · rw [Bool.not_eq_true] at hdf
      rcases hmode with hmode | hmode
      · refine ⟨str ("CLOSEST_DELTA requires expiry"), ?_⟩
        simp only [select_strike, hdf, hmode]
        rw [hexp]
        rfl
      · refine ⟨str ("DELTA_RANGE requires expiry"), ?_⟩
        simp only [select_strike, hdf, hmode]
        rw [hexp]
        rfl
  · intro hmode expiryDt full hexp hens hcand
    by_cases hdf : (chain.filter (fun r => decide (pyUpper r.optionType = pyUpper ot))).isEmpty
      = true
    · refine ⟨str ("No rows for the requested option type"), ?_⟩
      simp only [select_strike, hdf]
      rfl
    · rw [Bool.not_eq_true] at hdf
      by_cases hall : (full.filter (fun r => decide (pyUpper r.optionType = pyUpper ot))).all
          (fun r => decide (r.delta = none)) = true
      · refine ⟨str ("Unable to compute Delta for DELTA_RANGE mode"), ?_⟩
        simp only [select_strike, hdf, hmode]
        rw [hexp]
        simp only []
        rw [hens]
        simp only [hall]
        rfl
      · rw [Bool.not_eq_true] at hall
        refine ⟨str ("No strikes fall within the specified delta range"), ?_⟩
        simp only [select_strike, hdf, hmode]
        rw [hexp]
        simp only []
        rw [hens]
        simp only [hall, hcand]
        rfl

/-- Witness for C8: the three error branches hit concretely — an empty
chain in STRIKE_TYPE mode, CLOSEST_DELTA with no expiry parameter on a
chain whose expiry column is null, and DELTA_RANGE with the empty band
[0, 0] against a chain whose only |delta| is 1. -/
theorem c8_selection_errors_witness :
    ((([] : List ORow).filter
        (fun r => decide (pyUpper r.optionType = pyUpper (str ("CE"))))).isEmpty = true ∧
     (∃ e, select_strike pmId 0 [] (str ("CE")) 100 critATM = .error e)) ∧
    (pyUpper critCD.mode = str ("CLOSEST_DELTA") ∧
     infer_expiry_dt (rowD :: []) critCD.params = none ∧
     (∃ e, select_strike pmId 0 (rowD :: []) (str ("CE")) 100 critCD = .error e)) ∧
    (pyUpper critDR.mode = str ("DELTA_RANGE") ∧
     infer_expiry_dt (rowD :: []) critDR.params = some 7 ∧
     ensure_delta pmId (rowD :: []) 100 7
       (critDR.params.riskFree.getD (critDR.params.rIr.getD (6/100)))
       (critDR.params.divYield.getD (critDR.params.qDy.getD 0))
       (critDR.params.nowDt.getD 0) (critDR.params.minPrice.getD (1/100))
       = some (rowD :: []) ∧
     (delta_range_cands
       ((rowD :: []).filter (fun r => decide (pyUpper r.optionType = pyUpper (str ("CE")))))
       (critDR.params.lower.getD 0) (critDR.params.upper.getD 100)).isEmpty = true ∧
     (∃ e, select_strike pmId 0 (rowD :: []) (str ("CE")) 100 critDR = .error e)) := by
  have hens : ensure_delta pmId (rowD :: []) 100 7
      (critDR.params.riskFree.getD (critDR.params.rIr.getD (6/100)))
      (critDR.params.divYield.getD (critDR.params.qDy.getD 0))
      (critDR.params.nowDt.getD 0) (critDR.params.minPrice.getD (1/100))
      = some (rowD :: []) := rfl
  have hcand : (delta_range_cands
      ((rowD :: []).filter (fun r => decide (pyUpper r.optionType = pyUpper (str ("CE")))))
      (critDR.params.lower.getD 0) (critDR.params.upper.getD 100)).isEmpty = true := rfl
  have h1 := (c8_selection_errors pmId 0 [] (str ("CE")) 100 critATM).1 rfl
  have h2 := (c8_selection_errors pmId 0 (rowD :: []) (str ("CE")) 100 critCD).2.1
    (Or.inl rfl) rfl
  have h3 := (c8_selection_errors pmId 0 (rowD :: []) (str ("CE")) 100 critDR).2.2
    rfl 7 (rowD :: []) rfl hens hcand
  exact ⟨⟨rfl, h1⟩, ⟨rfl, rfl, h2⟩, ⟨rfl, rfl, hens, hcand, h3⟩⟩

/-- The bound normalisation of PREMIUM_RANGE: the swap-if-reversed pair
is the (min, max) pair. -/
lemma lu_norm (a b : ℚ) : (if b < a then (b, a) else (a, b)) = (min a b, max a b) := by
  split_ifs with h
  · rw [min_eq_right h.le, max_eq_left h.le]
  · rw [min_eq_left (not_lt.mp h), max_eq_right (not_lt.mp h)]

/-- Claim C10: `select_strike` in PREMIUM_RANGE mode is symmetric in its
bounds — swapping `lower` and `upper` never changes the result (first
conjunct) — and when no premium of the filtered chain lies in the
normalised band, the strike whose premium is closest to the band's
midpoint over the whole filtered chain is returned as a success, not an
error (second conjunct). -/
theorem c10_premium_range_bounds :
    ∀ (pm : MathPrims) (envNow : ℚ) (chain : List ORow) (ot : List Char) (atm : ℚ)
      (m : List Char) (p : SParams) (a b : ℚ),
      pyUpper m = str ("PREMIUM_RANGE") →
      (select_strike pm envNow chain ot atm ⟨m, { p with lower := some a, upper := some b }⟩ =
       select_strike pm envNow chain ot atm ⟨m, { p with lower := some b, upper := some a }⟩) ∧
      (∀ r : ORow,
        (chain.filter (fun q => decide (pyUpper q.optionType = pyUpper ot))).isEmpty = false →
        ((chain.filter (fun q => decide (pyUpper q.optionType = pyUpper ot))).filter
          (fun q => decide (min a b ≤ q.close) && decide (q.close ≤ max a b))).isEmpty = true →
        argminRow (fun q => |q.close - (min a b + max a b) / 2|)
          (chain.filter (fun q => decide (pyUpper q.optionType = pyUpper ot))) = some r →
        select_strike pm envNow chain ot atm ⟨m, { p with lower := some a, upper := some b }⟩ =
          .ok r.strike) := by
  intro pm envNow chain ot atm m p a b hmode
  have l1 : (if b < a then ((b:ℚ), a) else (a, b)).1 = min a b := by rw [lu_norm]
  have l2 : (if b < a then ((b:ℚ), a) else (a, b)).2 = max a b := by rw [lu_norm]
  have r1 : (if a < b then ((a:ℚ), b) else (b, a)).1 = min a b := by rw [lu_norm b a, min_comm]
  have r2 : (if a < b then ((a:ℚ), b) else (b, a)).2 = max a b := by rw [lu_norm b a, max_comm]
  constructor
  · by_cases hdf : (chain.filter (fun q => decide (pyUpper q.optionType = pyUpper ot))).isEmpty
      = true
    · simp only [select_strike, if_pos hdf]
    · rw [Bool.not_eq_true] at hdf
      simp only [select_strike, hdf, hmode,
        if_neg (show ¬ (str ("PREMIUM_RANGE")) = (str ("STRIKE_TYPE")) from by decide),
        if_neg (show ¬ ((false : Bool) = true) from by decide),
        if_pos True.intro, l1, l2, r1, r2]
  · intro r hdf hcand hmin
    simp only [select_strike, hdf, hmode,
      if_neg (show ¬ (str ("PREMIUM_RANGE")) = (str ("STRIKE_TYPE")) from by decide),
      if_neg (show ¬ ((false : Bool) = true) from by decide),
      if_pos True.intro, l1, l2]
    simp only [hcand, hmin, if_pos True.intro]

/-- Witness for C10: on the one-row chain `rowP` (premium 50) with the
reversed bounds (10, 5), the call equals the (5, 10) call, the band
filter is empty, and the fallback returns strike 100. -/
theorem c10_premium_range_bounds_witness :
    pyUpper (str ("PREMIUM_RANGE")) = str ("PREMIUM_RANGE") ∧
    (select_strike pmId 0 (rowP :: []) (str ("CE")) 100 (critPR 10 5) =
     select_strike pmId 0 (rowP :: []) (str ("CE")) 100 (critPR 5 10)) ∧
    (((rowP :: []).filter
        (fun q => decide (pyUpper q.optionType = pyUpper (str ("CE"))))).isEmpty = false ∧
     (((rowP :: []).filter (fun q => decide (pyUpper q.optionType = pyUpper (str ("CE"))))).filter
        (fun q => decide (min (10:ℚ) 5 ≤ q.close) && decide (q.close ≤ max (10:ℚ) 5))).isEmpty
        = true ∧
     argminRow (fun q => |q.close - (min (10:ℚ) 5 + max (10:ℚ) 5) / 2|)
        ((rowP :: []).filter (fun q => decide (pyUpper q.optionType = pyUpper (str ("CE")))))
        = some rowP ∧
     select_strike pmId 0 (rowP :: []) (str ("CE")) 100 (critPR 10 5) = .ok rowP.strike) := by
  have hdf : ((rowP :: []).filter
      (fun q => decide (pyUpper q.optionType = pyUpper (str ("CE"))))).isEmpty = false := rfl
  have hcand : (((rowP :: []).filter
      (fun q => decide (pyUpper q.optionType = pyUpper (str ("CE"))))).filter
      (fun q => decide (min (10:ℚ) 5 ≤ q.close) && decide (q.close ≤ max (10:ℚ) 5))).isEmpty
      = true := by decide
  have hmin : argminRow (fun q => |q.close - (min (10:ℚ) 5 + max (10:ℚ) 5) / 2|)
      ((rowP :: []).filter (fun q => decide (pyUpper q.optionType = pyUpper (str ("CE")))))
      = some rowP := rfl
  have h := c10_premium_range_bounds pmId 0 (rowP :: []) (str ("CE")) 100
    (str ("PREMIUM_RANGE")) {} 10 5 rfl
  exact ⟨rfl, h.1, hdf, hcand, hmin, h.2 rowP hdf hcand hmin⟩

end TradingSys
